import Mathlib

/-!
Verification of the taar profile fetcher (`src/taar/profile_fetcher.py`).

The development shallowly embeds the read/write facade over the client-profile
datastore: the record codec (json + zlib + utf-8, modelled executably), the two
storage controllers (`BigTableProfileController`, `ProfileController`), and the
`ProfileFetcher` orchestration (test-identifier short-circuit, lazy backend,
lookup, normalization).

Python strings are modelled as lists of Unicode code points (`List Nat`),
byte strings as lists of byte values (`List Nat`), JSON-representable Python
values as the inductive `Json`, Python dicts as association lists looked up by
first match, and a raised Python exception as the `.error` side of `Except`.
-/

/-- Unicode code points of a Lean string literal, used to transcribe the
Python string literals of the source. -/
def s2n (s : String) : List Nat := s.data.map Char.toNat

/-- A JSON-representable Python value: `None`, booleans, integers, strings
(code-point lists), lists and dicts. Numbers are modelled as integers, the
only numeric shape the profile records use. -/
inductive Json where
  | null
  | bool (b : Bool)
  | num (n : Int)
  | str (s : List Nat)
  | arr (xs : List Json)
  | obj (kvs : List (List Nat × Json))

/-- First-match lookup in an association list, the model of a Python dict
read (dict keys are unique, so first match is the dict's value). -/
def lookupA {β : Type} : List (List Nat × β) → List Nat → Option β
  | [], _ => none
  | (k, v) :: rest, key => if k = key then some v else lookupA rest key

/-- `d.get(key, default)` on a dict. -/
def dictGet (kvs : List (List Nat × Json)) (k : List Nat) (dflt : Json) : Json :=
  (lookupA kvs k).getD dflt

/-- Python truthiness of a JSON-representable value (`bool(v)`). -/
def truthy : Json → Bool
  | .null => false
  | .bool b => b
  | .num n => n != 0
  | .str s => !s.isEmpty
  | .arr xs => !xs.isEmpty
  | .obj kvs => !kvs.isEmpty

/-- A raised Python exception, by kind. -/
inductive PyErr where
  | attributeError
  | keyError
  | typeError
  | indexError
  | zlibError
  | unicodeDecodeError
  | jsonDecodeError
  | transport
deriving DecidableEq

/-! ### Dict keys appearing in `profile_fetcher.py` -/

def kClientId : List Nat := s2n "client_id"
def kActiveAddons : List Nat := s2n "active_addons"
def kAddonId : List Nat := s2n "addon_id"
def kIsSystem : List Nat := s2n "is_system"
def kCity : List Nat := s2n "city"
def kSubsessionLength : List Nat := s2n "subsession_length"
def kLocale : List Nat := s2n "locale"
def kOs : List Nat := s2n "os"
def kDisabledAddonsIds : List Nat := s2n "disabled_addons_ids"
def kPlacesBookmarksCount : List Nat := s2n "places_bookmarks_count"
def kTabOpenCount : List Nat := s2n "scalar_parent_browser_engagement_tab_open_event_count"
def kTotalUri : List Nat := s2n "scalar_parent_browser_engagement_total_uri_count"
def kUniqueTlds : List Nat := s2n "scalar_parent_browser_engagement_unique_domains_count"

/-! ### Record codec, part 1: the JSON serializer.

Modelled from the spec: `json.dumps` / `json.loads` are library code outside
the repository; the spec fixes the wire format to "UTF-8 JSON" serialization
with a lossless round trip. They are modelled here as an executable
printer/parser pair for the default `json.dumps` output format
(separators `", "` and `": "`, `ensure_ascii` escaping with lowercase hex,
surrogate pairs above the basic plane). Numbers are printed in decimal with a
leading minus for negatives. -/

/-- Lowercase hex digit for a value below 16 (the `ensure_ascii` escape style). -/
def hexDigit (v : Nat) : Nat := if v < 10 then 48 + v else 87 + v

/-- The four hex digits of a value below `0x10000`, most significant first. -/
def hex4 (n : Nat) : List Nat :=
  [hexDigit (n / 4096 % 16), hexDigit (n / 256 % 16), hexDigit (n / 16 % 16), hexDigit (n % 16)]

/-- Value of a hex digit code point, if it is one. -/
def hexVal (c : Nat) : Option Nat :=
  if 48 ≤ c ∧ c ≤ 57 then some (c - 48)
  else if 97 ≤ c ∧ c ≤ 102 then some (c - 87)
  else if 65 ≤ c ∧ c ≤ 70 then some (c - 55)
  else none

/-- Combined value of four hex digit code points. -/
def hex4Val (a b c d : Nat) : Option Nat := do
  let va ← hexVal a
  let vb ← hexVal b
  let vc ← hexVal c
  let vd ← hexVal d
  return ((va * 16 + vb) * 16 + vc) * 16 + vd

/-- Decimal digit code points of a natural number, most significant first. -/
def natToDigits (n : Nat) : List Nat :=
  if n < 10 then [48 + n] else natToDigits (n / 10) ++ [48 + n % 10]
termination_by n
decreasing_by exact Nat.div_lt_self (by omega) (by omega)

/-- Decimal representation of a Python integer. -/
def printInt (i : Int) : List Nat :=
  if i < 0 then 45 :: natToDigits i.natAbs else natToDigits i.toNat

/-- Greedily consume decimal digits, folding them onto `acc`; stops at the
first non-digit. -/
def parseDigits : List Nat → Nat → Nat × List Nat
  | c :: rest, acc =>
      if 48 ≤ c ∧ c ≤ 57 then parseDigits rest (acc * 10 + (c - 48)) else (acc, c :: rest)
  | [], acc => (acc, [])

/-- `ensure_ascii` escaping of one code point: quote and backslash get
two-character escapes, the control characters 8..13 their short forms, other
printable ASCII passes through, and everything else becomes `\uXXXX`
(a surrogate pair beyond the basic plane). -/
def escapeCp (n : Nat) : List Nat :=
  if n = 34 then [92, 34]
  else if n = 92 then [92, 92]
  else if n = 8 then [92, 98]
  else if n = 9 then [92, 116]
  else if n = 10 then [92, 110]
  else if n = 12 then [92, 102]
  else if n = 13 then [92, 114]
  else if 32 ≤ n ∧ n ≤ 126 then [n]
  else if n < 65536 then 92 :: 117 :: hex4 n
  else 92 :: 117 :: hex4 (55296 + (n - 65536) / 1024) ++ 92 :: 117 :: hex4 (56320 + (n - 65536) % 1024)

/-- The escaped body of a serialized string (without the enclosing quotes). -/
def escBody (s : List Nat) : List Nat := s.flatMap escapeCp

/-- Value of a two-character escape (`\"`, `\\`, `\b`, `\t`, `\n`, `\f`,
`\r`, `\/`), if it is one. -/
def escapeShort : Nat → Option Nat
  | 34 => some 34
  | 92 => some 92
  | 98 => some 8
  | 116 => some 9
  | 110 => some 10
  | 102 => some 12
  | 114 => some 13
  | 47 => some 47
  | _ => none

/-- First pass of string-body parsing, up to the closing quote: each escape
becomes its raw code unit (a `\uXXXX` escape may yield a surrogate half), a
raw printable character passes through, raw control characters are rejected
(strict mode), and an unterminated body or unknown escape fails. -/
def parseUnits : List Nat → Option (List Nat × List Nat)
  | [] => none
  | 34 :: rest => some ([], rest)
  | 92 :: 117 :: h1 :: h2 :: h3 :: h4 :: rest3 =>
    (match hex4Val h1 h2 h3 h4 with
    | none => none
    | some n => (parseUnits rest3).map (fun p => (n :: p.1, p.2)))
  | 92 :: e :: rest2 =>
    (match escapeShort e with
    | some x => (parseUnits rest2).map (fun p => (x :: p.1, p.2))
    | none => none)
  | c :: rest =>
    if c = 92 then none
    else if c < 32 then none
    else (parseUnits rest).map (fun p => (c :: p.1, p.2))

/-- Second pass: an adjacent high/low surrogate pair of code units (as two
`\uXXXX` escapes produce) combines into the supplementary scalar it encodes,
scanning left to right. -/
def combineSurrogates : List Nat → List Nat
  | u :: v :: rest =>
    if (55296 ≤ u ∧ u ≤ 56319) ∧ (56320 ≤ v ∧ v ≤ 57343) then
      (65536 + (u - 55296) * 1024 + (v - 56320)) :: combineSurrogates rest
    else u :: combineSurrogates (v :: rest)
  | s => s

/-- Parse a serialized string body up to its closing quote, undoing
`escapeCp`: escapes are decoded and adjacent surrogate escape pairs combined,
as `json.loads` does. -/
def parseStringBody (s : List Nat) : Option (List Nat × List Nat) :=
  (parseUnits s).map (fun p => (combineSurrogates p.1, p.2))

/-- The code units a scalar serializes to: itself within the basic plane, a
surrogate pair above it. -/
def cpUnits (c : Nat) : List Nat :=
  if c < 65536 then [c]
  else [55296 + (c - 65536) / 1024, 56320 + (c - 65536) % 1024]

/-- Units of a whole string. -/
def unitsOf (s : List Nat) : List Nat := s.flatMap cpUnits

/-! ### The serializer (the format of `json.dumps` with its default separators) -/

mutual

def printJson : Json → List Nat
  | .null => [110, 117, 108, 108]
  | .bool true => [116, 114, 117, 101]
  | .bool false => [102, 97, 108, 115, 101]
  | .num i => printInt i
  | .str s => 34 :: (escBody s ++ [34])
  | .arr [] => [91, 93]
  | .arr (x :: xs) => 91 :: (printJson x ++ printArrTail xs ++ [93])
  | .obj [] => [123, 125]
  | .obj (kv :: kvs) => 123 :: (printMember kv ++ printObjTail kvs ++ [125])

def printArrTail : List Json → List Nat
  | [] => []
  | x :: xs => 44 :: 32 :: (printJson x ++ printArrTail xs)

def printMember : List Nat × Json → List Nat
  | (k, v) => 34 :: (escBody k ++ 34 :: 58 :: 32 :: printJson v)

def printObjTail : List (List Nat × Json) → List Nat
  | [] => []
  | kv :: kvs => 44 :: 32 :: (printMember kv ++ printObjTail kvs)

end

/-! ### Well-formedness: every string holds Unicode scalar values -/

/-- A Unicode scalar value: what one position of a (well-formed) Python `str`
holds. -/
def scalarOk (n : Nat) : Bool := decide (n < 55296 ∨ (57343 < n ∧ n < 1114112))

/-- All code points of a string are Unicode scalar values. -/
def strOk (s : List Nat) : Bool := s.all scalarOk

mutual

/-- Every string in the value (including dict keys) is well formed. -/
def jsonOk : Json → Bool
  | .null => true
  | .bool _ => true
  | .num _ => true
  | .str s => strOk s
  | .arr xs => jsonOkL xs
  | .obj kvs => jsonOkM kvs

def jsonOkL : List Json → Bool
  | [] => true
  | x :: xs => jsonOk x && jsonOkL xs

def jsonOkM : List (List Nat × Json) → Bool
  | [] => true
  | (k, v) :: kvs => strOk k && jsonOk v && jsonOkM kvs

end

/-! ### The parser (the whitespace-tolerant scanner of `json.loads`) -/

/-- JSON whitespace (space, tab, newline, carriage return). -/
def isWsN (n : Nat) : Bool := n == 32 || n == 9 || n == 10 || n == 13

/-- Skip leading JSON whitespace. -/
def skipWs : List Nat → List Nat
  | c :: cs => if isWsN c then skipWs cs else c :: cs
  | [] => []

mutual

/-- Parse one JSON value, with `fuel` bounding the recursion. -/
def parseValue : Nat → List Nat → Option (Json × List Nat)
  | 0, _ => none
  | fuel + 1, s =>
    match skipWs s with
    | [] => none
    | c :: r =>
      if c = 34 then (parseStringBody r).map (fun p => (Json.str p.1, p.2))
      else if c = 91 then
        match skipWs r with
        | [] => none
        | d :: t =>
          if d = 93 then some (Json.arr [], t)
          else (parseArrayRest fuel (d :: t)).map (fun p => (Json.arr p.1, p.2))
      else if c = 123 then
        match skipWs r with
        | [] => none
        | d :: t =>
          if d = 125 then some (Json.obj [], t)
          else (parseObjRest fuel (d :: t)).map (fun p => (Json.obj p.1, p.2))
      else if c = 110 then
        match r with
        | 117 :: 108 :: 108 :: t => some (Json.null, t)
        | _ => none
      else if c = 116 then
        match r with
        | 114 :: 117 :: 101 :: t => some (Json.bool true, t)
        | _ => none
      else if c = 102 then
        match r with
        | 97 :: 108 :: 115 :: 101 :: t => some (Json.bool false, t)
        | _ => none
      else if c = 45 then
        match r with
        | [] => none
        | d :: t =>
          if 48 ≤ d ∧ d ≤ 57 then
            match parseDigits (d :: t) 0 with
            | (n, rest) => some (Json.num (-(n : Int)), rest)
          else none
      else if 48 ≤ c ∧ c ≤ 57 then
        match parseDigits (c :: r) 0 with
        | (n, rest) => some (Json.num (n : Int), rest)
      else none

/-- Parse the non-empty element list of an array, after the opening bracket. -/
def parseArrayRest : Nat → List Nat → Option (List Json × List Nat)
  | 0, _ => none
  | fuel + 1, s =>
    match parseValue fuel (skipWs s) with
    | none => none
    | some (v, r) =>
      match skipWs r with
      | [] => none
      | d :: t =>
        if d = 44 then (parseArrayRest fuel (skipWs t)).map (fun p => (v :: p.1, p.2))
        else if d = 93 then some ([v], t)
        else none

/-- Parse the non-empty member list of an object, after the opening brace. -/
def parseObjRest : Nat → List Nat → Option (List (List Nat × Json) × List Nat)
  | 0, _ => none
  | fuel + 1, s =>
    match skipWs s with
    | [] => none
    | d :: t =>
      if d = 34 then
        match parseStringBody t with
        | none => none
        | some (k, r1) =>
          match skipWs r1 with
          | [] => none
          | d2 :: r2 =>
            if d2 = 58 then
              match parseValue fuel (skipWs r2) with
              | none => none
              | some (v, r3) =>
                match skipWs r3 with
                | [] => none
                | d3 :: r4 =>
                  if d3 = 44 then
                    (parseObjRest fuel (skipWs r4)).map (fun p => ((k, v) :: p.1, p.2))
                  else if d3 = 125 then some ([(k, v)], r4)
                  else none
            else none
      else none

end

/-- `json.dumps(record)` as text (code points). -/
def json_dumps (r : Json) : List Nat := printJson r

/-- `json.loads(text)`: parse one value and insist nothing but whitespace
follows. -/
def json_loads (s : List Nat) : Option Json :=
  match parseValue (s.length + 1) s with
  | some (v, r) => if skipWs r = [] then some v else none
  | none => none

/-! ### Record codec, part 2: compression and UTF-8.

Modelled from the spec: `zlib.compress` / `zlib.decompress` are library code
outside the repository; the spec requires only "a general-purpose lossless
compression pass" whose decompression inverts it and fails on corrupt input.
They are modelled by an executable run-length byte code: `compress` emits
(count, value) pairs for maximal runs capped at 255, `decompress` expands
them and fails (as the library raises `zlib.error`) on a dangling half pair. -/

/-- Fold one byte onto a run-length pair list, extending the front run when it
matches and is not yet at the cap. -/
def rleStep (b : Nat) : List (Nat × Nat) → List (Nat × Nat)
  | [] => [(1, b)]
  | (n, v) :: t => if v = b ∧ n < 255 then (n + 1, v) :: t else (1, b) :: (n, v) :: t

/-- Run-length pairs (count, value) of a byte list. -/
def rleEncode (bs : List Nat) : List (Nat × Nat) := bs.foldr rleStep []

/-- Lossless compression model of `zlib.compress`. -/
def zlib_compress (bs : List Nat) : List Nat :=
  (rleEncode bs).flatMap (fun p => [p.1, p.2])

/-- Lossless decompression model of `zlib.decompress`; `none` models the
`zlib.error` raised on a corrupt payload. -/
def zlib_decompress : List Nat → Option (List Nat)
  | [] => some []
  | [_] => none
  | n :: v :: rest => (zlib_decompress rest).map (fun bs => List.replicate n v ++ bs)

/-- Modelled from the spec: `str.encode("utf8")` is library code outside the
repository. One code point becomes its standard 1–4 byte UTF-8 sequence. -/
def utf8EncodeCp (n : Nat) : List Nat :=
  if n < 128 then [n]
  else if n < 2048 then [192 + n / 64, 128 + n % 64]
  else if n < 65536 then [224 + n / 4096, 128 + n / 64 % 64, 128 + n % 64]
  else [240 + n / 262144, 128 + n / 4096 % 64, 128 + n / 64 % 64, 128 + n % 64]

/-- UTF-8 bytes of a text. -/
def utf8Encode (s : List Nat) : List Nat := s.flatMap utf8EncodeCp

/-- Modelled from the spec: `bytes.decode("utf-8")`, with a fuel argument
(one unit per decoded code point; each code point consumes at least one byte,
so the byte count is always enough fuel); `none` models the
`UnicodeDecodeError` raised on a byte sequence that is not UTF-8. -/
def utf8DecodeAux : Nat → List Nat → Option (List Nat)
  | _, [] => some []
  | 0, _ :: _ => none
  | fuel + 1, b :: rest =>
    if b < 128 then (utf8DecodeAux fuel rest).map (b :: ·)
    else if b < 192 then none
    else if b < 224 then
      match rest with
      | b1 :: rest1 =>
        if 128 ≤ b1 ∧ b1 < 192 then
          (utf8DecodeAux fuel rest1).map (((b - 192) * 64 + (b1 - 128)) :: ·)
        else none
      | _ => none
    else if b < 240 then
      match rest with
      | b1 :: b2 :: rest2 =>
        if (128 ≤ b1 ∧ b1 < 192) ∧ (128 ≤ b2 ∧ b2 < 192) then
          (utf8DecodeAux fuel rest2).map
            ((((b - 224) * 64 + (b1 - 128)) * 64 + (b2 - 128)) :: ·)
        else none
      | _ => none
    else
      match rest with
      | b1 :: b2 :: b3 :: rest3 =>
        if (128 ≤ b1 ∧ b1 < 192) ∧ (128 ≤ b2 ∧ b2 < 192) ∧ (128 ≤ b3 ∧ b3 < 192) then
          (utf8DecodeAux fuel rest3).map
            (((((b - 240) * 64 + (b1 - 128)) * 64 + (b2 - 128)) * 64 + (b3 - 128)) :: ·)
        else none
      | _ => none

/-- Decode a UTF-8 byte sequence to code points. -/
def utf8Decode (bs : List Nat) : Option (List Nat) := utf8DecodeAux bs.length bs

/-- The stored payload of a record, as written by
`BigTableProfileController.set_client_profile` (line 69):
`zlib.compress(json.dumps(client_profile).encode("utf8"))`. -/
def set_payload (r : Json) : List Nat := zlib_compress (utf8Encode (json_dumps r))

/-- The read-side decoding used by both controllers (lines 83 and 110–112):
`json.loads(zlib.decompress(value).decode("utf-8"))`; `none` when any stage
raises. -/
def read_decode (bs : List Nat) : Option Json :=
  (zlib_decompress bs).bind (fun t => (utf8Decode t).bind json_loads)

/-! ### The storage controllers -/

/-- A BigTable row as `table.read_row` returns it: `cells` maps a column
family name to a map from column name (bytes) to the cell values, most
recent first (the read applies `CellsColumnLimitFilter(1)`). -/
structure BTRow where
  cells : List (List Nat × List (List Nat × List (List Nat)))

/-- The column family id `"profile"` of the controller. -/
def column_family_id : List Nat := s2n "profile"

/-- The column name `"payload".encode()`. -/
def column_name : List Nat := s2n "payload"

/-- `BigTableProfileController.get_client_profile` (lines 74–84) against a
table state mapping a row key to its row, or to `None` when the row does not
exist (the `google.cloud.bigtable` contract for `read_row`). The code indexes
`row.cells[family][column][0]` and decodes without any error handling, so a
missing row hits `None.cells` (an `AttributeError`), a missing family or
column raises `KeyError`, an empty cell list raises `IndexError`, and a bad
payload raises from the decoding stage. -/
def BigTableProfileController_get_client_profile (table : List Nat → Option BTRow)
    (client_id : List Nat) : Except PyErr Json :=
  match table (utf8Encode client_id) with
  | none => .error .attributeError
  | some row =>
    match lookupA row.cells column_family_id with
    | none => .error .keyError
    | some cols =>
      match lookupA cols column_name with
      | none => .error .keyError
      | some cells =>
        match cells with
        | [] => .error .indexError
        | v :: _ =>
          match zlib_decompress v with
          | none => .error .zlibError
          | some t =>
            match utf8Decode t with
            | none => .error .unicodeDecodeError
            | some s =>
              match json_loads s with
              | none => .error .jsonDecodeError
              | some j => .ok j

/-- `BigTableProfileController.set_client_profile` (lines 58–72): the row key
is the UTF-8 encoding of the record's `client_id` (a `KeyError` if absent,
and the model marks a non-string value as the `AttributeError` its `.encode`
raises); the single written cell holds `set_payload`. -/
def BigTableProfileController_set_client_profile (table : List Nat → Option BTRow)
    (client_profile : Json) : Except PyErr (List Nat → Option BTRow) :=
  match client_profile with
  | .obj kvs =>
    match lookupA kvs kClientId with
    | none => .error .keyError
    | some (.str cid) =>
      let row_key := utf8Encode cid
      .ok (fun k =>
        if k = row_key then
          some ⟨[(column_family_id, [(column_name, [set_payload client_profile])])]⟩
        else table k)
    | some _ => .error .attributeError
  | _ => .error .typeError

/-- One DynamoDB `get_item` outcome, as `ProfileController.get_client_profile`
observes it: the call itself raised; or the response carries no `"Item"` key
(unknown client, so the chained subscript raises `KeyError`); or it carries
the stored payload bytes. -/
inductive DDBResponse where
  | raise (e : PyErr)
  | missing
  | found (payload : List Nat)

/-- The body of the `try:` block of `ProfileController.get_client_profile`
(lines 107–112): fetch the item, take its payload, decompress, decode UTF-8,
parse JSON; any stage may raise. -/
def ddb_read_raw (table : List Nat → DDBResponse) (client_id : List Nat) :
    Except PyErr Json :=
  match table client_id with
  | .raise e => .error e
  | .missing => .error .keyError
  | .found bs =>
    match zlib_decompress bs with
    | none => .error .zlibError
    | some t =>
      match utf8Decode t with
      | none => .error .unicodeDecodeError
      | some s =>
        match json_loads s with
        | none => .error .jsonDecodeError
        | some j => .ok j

/-- `ProfileController.get_client_profile` (lines 104–121): the `try` body
wrapped by `except KeyError: return None` and `except Exception: return None`
(with a debug log), so every raised error becomes `None`. -/
def ProfileController_get_client_profile (table : List Nat → DDBResponse)
    (client_id : List Nat) : Option Json :=
  match ddb_read_raw table client_id with
  | .ok j => some j
  | .error _ => none

/-! ### The profile fetcher and its normalization step -/

/-- The dict returned by `ProfileFetcher.get` (lines 151–163 and 179–197),
one field per fixed key. `installed_addons` is the comprehension's list;
every other non-`client_id` field is whatever value the raw record held
(the code performs no further shape checks on them). -/
structure NormalizedProfile where
  client_id : List Nat
  geo_city : Json
  subsession_length : Json
  locale : Json
  os : Json
  installed_addons : List Json
  disabled_addons_ids : Json
  bookmark_count : Json
  tab_open_count : Json
  total_uri : Json
  unique_tlds : Json

/-- One element's step of the comprehension at lines 173–177: the filter
`not addon.get("is_system", False)` runs first (an `AttributeError` if the
element is not a dict, Python truthiness on the flag), then `addon["addon_id"]`
is read (a `KeyError` if absent). `ok none` means filtered out. -/
def addonStep (a : Json) : Except PyErr (Option Json) :=
  match a with
  | .obj kvs =>
    if truthy (dictGet kvs kIsSystem (Json.bool false)) then .ok none
    else
      match lookupA kvs kAddonId with
      | some v => .ok (some v)
      | none => .error .keyError
  | _ => .error .attributeError

/-- The comprehension over the iterated elements, keeping source order. -/
def extractAddonsList : List Json → Except PyErr (List Json)
  | [] => .ok []
  | a :: rest =>
    match addonStep a with
    | .error e => .error e
    | .ok none => extractAddonsList rest
    | .ok (some v) => (extractAddonsList rest).map (v :: ·)

/-- Python iteration over the value of `active_addons`: a list yields its
elements, a string its one-character strings, a dict its keys; anything else
raises `TypeError`. -/
def pyIterate : Json → Except PyErr (List Json)
  | .arr xs => .ok xs
  | .str s => .ok (s.map (fun c => Json.str [c]))
  | .obj kvs => .ok (kvs.map (fun kv => Json.str kv.1))
  | .num _ => .error .typeError
  | .bool _ => .error .typeError
  | .null => .error .typeError

/-- The normalization step of `ProfileFetcher.get` (lines 173–197) on the
raw `profile_data`: build `addon_ids` from `active_addons` (default `[]`),
then assemble the returned dict, every other field via `.get` with its
default. A non-dict `profile_data` raises at the first `.get`
(`AttributeError`). -/
def normalizeStep (client_id : List Nat) (profile_data : Json) :
    Except PyErr NormalizedProfile :=
  match profile_data with
  | .obj kvs =>
    match (pyIterate (dictGet kvs kActiveAddons (Json.arr []))).bind extractAddonsList with
    | .error e => .error e
    | .ok addon_ids =>
      .ok
        { client_id := client_id
          geo_city := dictGet kvs kCity (Json.str [])
          subsession_length := dictGet kvs kSubsessionLength (Json.num 0)
          locale := dictGet kvs kLocale (Json.str [])
          os := dictGet kvs kOs (Json.str [])
          installed_addons := addon_ids
          disabled_addons_ids := dictGet kvs kDisabledAddonsIds (Json.arr [])
          bookmark_count := dictGet kvs kPlacesBookmarksCount (Json.num 0)
          tab_open_count := dictGet kvs kTabOpenCount (Json.num 0)
          total_uri := dictGet kvs kTotalUri (Json.num 0)
          unique_tlds := dictGet kvs kUniqueTlds (Json.num 0) }
  | _ => .error .attributeError

/-- The dict built by the test-identifier short-circuit (lines 151–163). -/
def synthetic_profile (client_id : List Nat) : NormalizedProfile :=
  { client_id := client_id
    geo_city := Json.str (s2n "Toronto")
    subsession_length := Json.num 42
    locale := Json.str (s2n "en-CA")
    os := Json.str (s2n "Linux")
    installed_addons := []
    disabled_addons_ids := Json.arr []
    bookmark_count := Json.num 0
    tab_open_count := Json.num 0
    total_uri := Json.num 0
    unique_tlds := Json.num 0 }

/-- A storage backend as the fetcher calls it: `get_client_profile` returns a
record or `None`, or raises. -/
def Backend : Type := List Nat → Except PyErr (Option Json)

/-- The DynamoDB controller as a backend: its `get_client_profile` never
raises, it returns a record or `None`. -/
def ddbBackend (table : List Nat → DDBResponse) : Backend :=
  fun cid => .ok (ProfileController_get_client_profile table cid)

/-- The BigTable controller as a backend: its `get_client_profile` returns a
record or raises; it never returns `None`. -/
def btBackend (table : List Nat → Option BTRow) : Backend :=
  fun cid => (BigTableProfileController_get_client_profile table cid).map some

/-- Modelled from the spec: the reserved test-identifier sets
`TEST_CLIENT_IDS` and `EMPTY_TEST_CLIENT_IDS` are imported from
`taar.recommenders`, which is outside `src/`; the spec leaves their contents
external, so they are parameters here. -/
structure TestSets where
  testIds : List (List Nat)
  emptyTestIds : List (List Nat)

/-- The per-instance state of a `ProfileFetcher`: the lazily constructed
backend cached in `self.__client` (`None` until first use or injection). -/
structure FetcherState where
  client : Option Backend

/-- `ProfileFetcher.get` (lines 148–197): the test-identifier short-circuit,
then the lazy `_client` property (constructing `defaultBackend`, the
configured `BigTableProfileController`, only when nothing is cached), the
backend lookup, the `None` check, and the normalization step. Returns the
call's outcome together with the fetcher state after the call; the method
itself catches nothing, so a raising backend or a raising normalization
propagates as `.error`. -/
def ProfileFetcher_get (ts : TestSets) (defaultBackend : Backend)
    (st : FetcherState) (client_id : List Nat) :
    Except PyErr (Option NormalizedProfile) × FetcherState :=
  if client_id ∈ ts.testIds ∨ client_id ∈ ts.emptyTestIds then
    (.ok (some (synthetic_profile client_id)), st)
  else
    let b := st.client.getD defaultBackend
    let st' : FetcherState := ⟨some b⟩
    match b client_id with
    | .error e => (.error e, st')
    | .ok none => (.ok none, st')
    | .ok (some profile_data) => ((normalizeStep client_id profile_data).map some, st')

/-! ### Spec-side shape predicates for the normalization claims -/

/-- An `active_addons` entry that is a mapping carrying `"addon_id"`. -/
def entryOk (a : Json) : Bool :=
  match a with
  | .obj kvs => (lookupA kvs kAddonId).isSome
  | _ => false

/-- The raw record's `active_addons` is absent, or is a list of mappings each
carrying `"addon_id"`. -/
def addonsShapeOk (kvs : List (List Nat × Json)) : Bool :=
  match lookupA kvs kActiveAddons with
  | none => true
  | some (.arr xs) => xs.all entryOk
  | some _ => false

/-- The spec's filter on an entry: its `is_system` flag is absent or false
(Python falsiness). -/
def spec_addon_included (a : Json) : Bool :=
  match a with
  | .obj kvs =>
    match lookupA kvs kIsSystem with
    | none => true
    | some v => !truthy v
  | _ => true

/-- The spec's projection of an entry: its `addon_id` value. -/
def spec_addon_id (a : Json) : Json :=
  match a with
  | .obj kvs => (lookupA kvs kAddonId).getD Json.null
  | _ => Json.null

/-! ### Codec lemmas: decimal digits -/

/-- The digit-folding step of `parseDigits`. -/
def digitFold (acc c : Nat) : Nat := acc * 10 + (c - 48)

theorem natToDigits_low (n : Nat) (h : n < 10) : natToDigits n = [48 + n] := by
  rw [natToDigits]
  simp [h]

theorem natToDigits_high (n : Nat) (h : ¬n < 10) :
    natToDigits n = natToDigits (n / 10) ++ [48 + n % 10] := by
  rw [natToDigits]
  simp [h]

theorem natToDigits_digits (n : Nat) : ∀ c ∈ natToDigits n, 48 ≤ c ∧ c ≤ 57 := by
  induction n using Nat.strong_induction_on with
  | _ n ih =>
    by_cases h : n < 10
    · rw [natToDigits_low n h]
      intro c hc
      simp only [List.mem_singleton] at hc
      omega
    · rw [natToDigits_high n h]
      intro c hc
      rcases List.mem_append.mp hc with h1 | h2
      · exact ih (n / 10) (Nat.div_lt_self (by omega) (by omega)) c h1
      · simp only [List.mem_singleton] at h2
        have := Nat.mod_lt n (show 0 < 10 by omega)
        omega

theorem natToDigits_head (n : Nat) :
    ∃ d t, natToDigits n = d :: t ∧ 48 ≤ d ∧ d ≤ 57 := by
  induction n using Nat.strong_induction_on with
  | _ n ih =>
    by_cases h : n < 10
    · exact ⟨48 + n, [], natToDigits_low n h, by omega, by omega⟩
    · obtain ⟨d, t, hd, h1, h2⟩ := ih (n / 10) (Nat.div_lt_self (by omega) (by omega))
      exact ⟨d, t ++ [48 + n % 10], by rw [natToDigits_high n h, hd]; rfl, h1, h2⟩

theorem foldl_natToDigits (n : Nat) :
    ∀ acc, (natToDigits n).foldl digitFold acc = acc * 10 ^ (natToDigits n).length + n := by
  induction n using Nat.strong_induction_on with
  | _ n ih =>
    intro acc
    by_cases h : n < 10
    · rw [natToDigits_low n h]
      simp only [List.foldl_cons, List.foldl_nil, digitFold, List.length_singleton, pow_one]
      omega
    · rw [natToDigits_high n h, List.foldl_append,
        ih (n / 10) (Nat.div_lt_self (by omega) (by omega)) acc]
      simp only [List.foldl_cons, List.foldl_nil, digitFold, List.length_append,
        List.length_singleton, pow_succ]
      have hmod := Nat.mod_lt n (show 0 < 10 by omega)
      have hdm := Nat.div_add_mod n 10
      have hmul : acc * (10 ^ (natToDigits (n / 10)).length * 10) =
          acc * 10 ^ (natToDigits (n / 10)).length * 10 := by ring
      set k := 10 ^ (natToDigits (n / 10)).length
      omega

/-- The head of `rest` (if any) is not a digit, so a greedy digit scan stops
exactly at `rest`. -/
def numDelim : List Nat → Bool
  | [] => true
  | d :: _ => !(decide (48 ≤ d) && decide (d ≤ 57))

theorem parseDigits_append (ds : List Nat) :
    ∀ rest acc, (∀ c ∈ ds, 48 ≤ c ∧ c ≤ 57) → numDelim rest = true →
      parseDigits (ds ++ rest) acc = (ds.foldl digitFold acc, rest) := by
  induction ds with
  | nil =>
    intro rest acc _ hrest
    cases rest with
    | nil => simp [parseDigits]
    | cons d t =>
      simp only [numDelim, Bool.not_eq_eq_eq_not, Bool.not_true, Bool.and_eq_false_iff,
        decide_eq_false_iff_not, not_le] at hrest
      simp only [List.nil_append, List.foldl_nil, parseDigits]
      rw [if_neg (by omega)]
  | cons c ds ih =>
    intro rest acc hds hrest
    have hc := hds c (by simp)
    simp only [List.cons_append, parseDigits, if_pos hc, List.foldl_cons]
    exact ih rest (digitFold acc c) (fun x hx => hds x (by simp [hx])) hrest

theorem parseDigits_natToDigits (n : Nat) (rest : List Nat) (hrest : numDelim rest = true) :
    parseDigits (natToDigits n ++ rest) 0 = (n, rest) := by
  rw [parseDigits_append _ _ _ (natToDigits_digits n) hrest, foldl_natToDigits n 0]
  simp

/-! ### Codec lemmas: string escaping -/

theorem hexVal_hexDigit (v : Nat) (h : v < 16) : hexVal (hexDigit v) = some v := by
  interval_cases v <;> rfl

theorem hex4Val_hex4 (n : Nat) (h : n < 65536) :
    hex4Val (hexDigit (n / 4096 % 16)) (hexDigit (n / 256 % 16)) (hexDigit (n / 16 % 16))
      (hexDigit (n % 16)) = some n := by
  rw [hex4Val, hexVal_hexDigit _ (Nat.mod_lt _ (by omega)),
    hexVal_hexDigit _ (Nat.mod_lt _ (by omega)), hexVal_hexDigit _ (Nat.mod_lt _ (by omega)),
    hexVal_hexDigit _ (Nat.mod_lt _ (by omega))]
  show some _ = some n
  congr 1
  omega

theorem parseUnits_plain (c : Nat) (rest : List Nat) (h34 : ¬c = 34) (h92 : ¬c = 92)
    (h32 : ¬c < 32) :
    parseUnits (c :: rest) = (parseUnits rest).map (fun p => (c :: p.1, p.2)) := by
  rw [parseUnits.eq_def]
  split
  · rename_i heq
    exact absurd heq (by simp)
  · rename_i heq
    injection heq with hc _
    exact absurd hc h34
  · rename_i heq
    injection heq with hc _
    exact absurd hc h92
  · rename_i heq
    injection heq with hc _
    exact absurd hc h92
  · rename_i c' rest' heq
    injection heq with hc hrest
    subst hc
    subst hrest
    rw [if_neg h92, if_neg h32]

theorem parseUnits_uescape (n : Nat) (hn : n < 65536) (rest : List Nat) :
    parseUnits (92 :: 117 :: (hex4 n ++ rest)) =
      (parseUnits rest).map (fun p => (n :: p.1, p.2)) := by
  rw [hex4]
  show parseUnits (92 :: 117 :: _ :: _ :: _ :: _ :: rest) = _
  simp only [parseUnits, hex4Val_hex4 n hn]

theorem parseUnits_escape (c : Nat) (hc : c < 1114112) (rest : List Nat) :
    parseUnits (escapeCp c ++ rest) =
      (parseUnits rest).map (fun p => (cpUnits c ++ p.1, p.2)) := by
  by_cases h34 : c = 34
  · subst h34; rfl
  · by_cases h92 : c = 92
    · subst h92; rfl
    · by_cases h8 : c = 8
      · subst h8; rfl
      · by_cases h9 : c = 9
        · subst h9; rfl
        · by_cases h10 : c = 10
          · subst h10; rfl
          · by_cases h12 : c = 12
            · subst h12; rfl
            · by_cases h13 : c = 13
              · subst h13; rfl
              · by_cases hpr : 32 ≤ c ∧ c ≤ 126
                · rw [show escapeCp c = [c] by
                    rw [escapeCp, if_neg h34, if_neg h92, if_neg h8, if_neg h9, if_neg h10,
                      if_neg h12, if_neg h13, if_pos hpr]]
                  rw [show cpUnits c = [c] from by rw [cpUnits, if_pos (by omega)]]
                  exact parseUnits_plain c rest h34 h92 (by omega)
                · by_cases hbmp : c < 65536
                  · rw [show escapeCp c ++ rest = 92 :: 117 :: (hex4 c ++ rest) from by
                      rw [escapeCp, if_neg h34, if_neg h92, if_neg h8, if_neg h9, if_neg h10,
                        if_neg h12, if_neg h13, if_neg hpr, if_pos hbmp]
                      simp [List.cons_append]]
                    rw [show cpUnits c = [c] from by rw [cpUnits, if_pos hbmp]]
                    rw [parseUnits_uescape c hbmp]
                    rfl
                  · have hhi1 : 55296 + (c - 65536) / 1024 < 65536 := by omega
                    have hlo1 : 56320 + (c - 65536) % 1024 < 65536 := by
                      have := Nat.mod_lt (c - 65536) (show 0 < 1024 by omega)
                      omega
                    rw [show escapeCp c ++ rest =
                        92 :: 117 :: (hex4 (55296 + (c - 65536) / 1024) ++
                          (92 :: 117 :: (hex4 (56320 + (c - 65536) % 1024) ++ rest))) from by
                      rw [escapeCp, if_neg h34, if_neg h92, if_neg h8, if_neg h9, if_neg h10,
                        if_neg h12, if_neg h13, if_neg hpr, if_neg (by omega)]
                      simp [List.cons_append, List.append_assoc]]
                    rw [show cpUnits c =
                        [55296 + (c - 65536) / 1024, 56320 + (c - 65536) % 1024] from by
                      rw [cpUnits, if_neg (by omega)]]
                    rw [parseUnits_uescape _ hhi1, parseUnits_uescape _ hlo1, Option.map_map]
                    rfl

theorem parseUnits_escBody (s : List Nat) :
    ∀ rest, (∀ c ∈ s, c < 1114112) → parseUnits (escBody s ++ 34 :: rest) =
      some (unitsOf s, rest) := by
  induction s with
  | nil =>
    intro rest _
    rfl
  | cons c s ih =>
    intro rest hok
    rw [escBody, List.flatMap_cons, List.append_assoc,
      parseUnits_escape c (hok c (by simp))]
    show Option.map _ (parseUnits (escBody s ++ 34 :: rest)) = _
    rw [ih rest (fun x hx => hok x (by simp [hx]))]
    simp [unitsOf]

theorem combineSurrogates_cpUnits (c : Nat) (hc : scalarOk c = true) (us : List Nat) :
    combineSurrogates (cpUnits c ++ us) = c :: combineSurrogates us := by
  have hsc : c < 55296 ∨ (57343 < c ∧ c < 1114112) := by
    simpa [scalarOk] using hc
  by_cases hbmp : c < 65536
  · rw [show cpUnits c = [c] from by rw [cpUnits, if_pos hbmp]]
    cases us with
    | nil => rfl
    | cons v t =>
      show combineSurrogates (c :: v :: t) = _
      have hng : ¬((55296 ≤ c ∧ c ≤ 56319) ∧ (56320 ≤ v ∧ v ≤ 57343)) := by omega
      rw [combineSurrogates]
      rw [if_neg hng]
  · rw [show cpUnits c =
        [55296 + (c - 65536) / 1024, 56320 + (c - 65536) % 1024] from by
      rw [cpUnits, if_neg (by omega)]]
    have hmod := Nat.mod_lt (c - 65536) (show 0 < 1024 by omega)
    have hdm := Nat.div_add_mod (c - 65536) 1024
    have hdiv : (c - 65536) / 1024 < 1024 := by omega
    show combineSurrogates (_ :: _ :: us) = _
    have hpg : (55296 ≤ 55296 + (c - 65536) / 1024 ∧ 55296 + (c - 65536) / 1024 ≤ 56319) ∧
        (56320 ≤ 56320 + (c - 65536) % 1024 ∧ 56320 + (c - 65536) % 1024 ≤ 57343) := by
      constructor <;> constructor <;> omega
    rw [combineSurrogates]
    rw [if_pos hpg]
    rw [show 65536 + (55296 + (c - 65536) / 1024 - 55296) * 1024 +
        (56320 + (c - 65536) % 1024 - 56320) = c from by omega]

theorem combineSurrogates_unitsOf (s : List Nat) (hok : strOk s = true) :
    combineSurrogates (unitsOf s) = s := by
  induction s with
  | nil => rfl
  | cons c s ih =>
    simp only [strOk, List.all_cons, Bool.and_eq_true] at hok
    rw [unitsOf, List.flatMap_cons]
    rw [show s.flatMap cpUnits = unitsOf s from rfl]
    rw [combineSurrogates_cpUnits c hok.1, ih hok.2]

theorem parseStringBody_escBody (s : List Nat) (rest : List Nat) (hok : strOk s = true) :
    parseStringBody (escBody s ++ 34 :: rest) = some (s, rest) := by
  have hlt : ∀ c ∈ s, c < 1114112 := by
    intro c hcs
    have := List.all_eq_true.mp hok c hcs
    simp only [scalarOk, decide_eq_true_eq] at this
    omega
  rw [parseStringBody, parseUnits_escBody s rest hlt]
  simp [combineSurrogates_unitsOf s hok]

/-! ### Codec lemmas: heads of serialized values, whitespace -/

theorem isWsN_false (c : Nat) (h : 34 ≤ c) : isWsN c = false := by
  simp only [isWsN, Bool.or_eq_false_iff, beq_eq_false_iff_ne]
  omega

theorem skipWs_cons (c : Nat) (t : List Nat) (h : isWsN c = false) :
    skipWs (c :: t) = c :: t := by
  rw [skipWs, h]
  rfl

theorem printInt_head (i : Int) :
    ∃ c t, printInt i = c :: t ∧ (c = 45 ∨ (48 ≤ c ∧ c ≤ 57)) := by
  rw [printInt]
  by_cases h : i < 0
  · exact ⟨45, _, by rw [if_pos h], Or.inl rfl⟩
  · obtain ⟨d, t, hd, h1, h2⟩ := natToDigits_head i.toNat
    exact ⟨d, t, by rw [if_neg h, hd], Or.inr ⟨h1, h2⟩⟩

theorem printJson_head (v : Json) :
    ∃ c t, printJson v = c :: t ∧
      (c = 110 ∨ c = 116 ∨ c = 102 ∨ c = 34 ∨ c = 91 ∨ c = 123 ∨ c = 45 ∨
        (48 ≤ c ∧ c ≤ 57)) := by
  cases v with
  | null => exact ⟨110, _, rfl, by omega⟩
  | bool b =>
    cases b with
    | true => exact ⟨116, _, rfl, by omega⟩
    | false => exact ⟨102, _, rfl, by omega⟩
  | num i =>
    obtain ⟨c, t, hct, hc⟩ := printInt_head i
    exact ⟨c, t, by rw [printJson, hct], by omega⟩
  | str s => exact ⟨34, _, rfl, by omega⟩
  | arr xs =>
    cases xs with
    | nil => exact ⟨91, _, rfl, by omega⟩
    | cons x xs => exact ⟨91, _, rfl, by omega⟩
  | obj kvs =>
    cases kvs with
    | nil => exact ⟨123, _, rfl, by omega⟩
    | cons kv kvs => exact ⟨123, _, rfl, by omega⟩

theorem skipWs_print (v : Json) (x : List Nat) :
    skipWs (printJson v ++ x) = printJson v ++ x := by
  obtain ⟨c, t, hct, hc⟩ := printJson_head v
  rw [hct, List.cons_append, skipWs_cons _ _ (isWsN_false c (by omega))]

theorem printJson_head_bounds (v : Json) :
    ∃ c t, printJson v = c :: t ∧ 34 ≤ c ∧ c ≤ 123 ∧ c ≠ 93 ∧ c ≠ 125 ∧ c ≠ 44 ∧
      c ≠ 58 := by
  obtain ⟨c, t, hct, hc⟩ := printJson_head v
  exact ⟨c, t, hct, by omega, by omega, by omega, by omega, by omega, by omega⟩

/-! ### Codec lemmas: one-step unfoldings of the value parser -/

theorem parseValue_succ_quote (f : Nat) (r : List Nat) :
    parseValue (f + 1) (34 :: r) = (parseStringBody r).map (fun p => (Json.str p.1, p.2)) := rfl

theorem parseValue_succ_null (f : Nat) (rest : List Nat) :
    parseValue (f + 1) ([110, 117, 108, 108] ++ rest) = some (Json.null, rest) := rfl

theorem parseValue_succ_true (f : Nat) (rest : List Nat) :
    parseValue (f + 1) ([116, 114, 117, 101] ++ rest) = some (Json.bool true, rest) := rfl

theorem parseValue_succ_false (f : Nat) (rest : List Nat) :
    parseValue (f + 1) ([102, 97, 108, 115, 101] ++ rest) = some (Json.bool false, rest) := rfl

theorem parseValue_succ_arr (f : Nat) (r : List Nat) :
    parseValue (f + 1) (91 :: r) =
      (match skipWs r with
      | [] => none
      | d :: t =>
        if d = 93 then some (Json.arr [], t)
        else (parseArrayRest f (d :: t)).map (fun p => (Json.arr p.1, p.2))) := rfl

theorem parseValue_succ_obj (f : Nat) (r : List Nat) :
    parseValue (f + 1) (123 :: r) =
      (match skipWs r with
      | [] => none
      | d :: t =>
        if d = 125 then some (Json.obj [], t)
        else (parseObjRest f (d :: t)).map (fun p => (Json.obj p.1, p.2))) := rfl

theorem parseValue_succ_minus (f : Nat) (r : List Nat) :
    parseValue (f + 1) (45 :: r) =
      (match r with
      | [] => none
      | d :: t =>
        if 48 ≤ d ∧ d ≤ 57 then
          (match parseDigits (d :: t) 0 with
          | (n, rest) => some (Json.num (-(n : Int)), rest))
        else none) := rfl

theorem parseArrayRest_succ (f : Nat) (s : List Nat) :
    parseArrayRest (f + 1) s =
      (match parseValue f (skipWs s) with
      | none => none
      | some (v, r) =>
        match skipWs r with
        | [] => none
        | d :: t =>
          if d = 44 then (parseArrayRest f (skipWs t)).map (fun p => (v :: p.1, p.2))
          else if d = 93 then some ([v], t)
          else none) := rfl

theorem parseObjRest_succ (f : Nat) (s : List Nat) :
    parseObjRest (f + 1) s =
      (match skipWs s with
      | [] => none
      | d :: t =>
        if d = 34 then
          match parseStringBody t with
          | none => none
          | some (k, r1) =>
            match skipWs r1 with
            | [] => none
            | d2 :: r2 =>
              if d2 = 58 then
                match parseValue f (skipWs r2) with
                | none => none
                | some (v, r3) =>
                  match skipWs r3 with
                  | [] => none
                  | d3 :: r4 =>
                    if d3 = 44 then
                      (parseObjRest f (skipWs r4)).map (fun p => ((k, v) :: p.1, p.2))
                    else if d3 = 125 then some ([(k, v)], r4)
                    else none
              else none
        else none) := rfl

theorem parseValue_succ_digit (f : Nat) (c : Nat) (r : List Nat) (h1 : 48 ≤ c) (h2 : c ≤ 57) :
    parseValue (f + 1) (c :: r) =
      (match parseDigits (c :: r) 0 with
      | (n, rest) => some (Json.num (n : Int), rest)) := by
  have e34 : ¬c = 34 := by omega
  have e91 : ¬c = 91 := by omega
  have e123 : ¬c = 123 := by omega
  have e110 : ¬c = 110 := by omega
  have e116 : ¬c = 116 := by omega
  have e102 : ¬c = 102 := by omega
  have e45 : ¬c = 45 := by omega
  rw [parseValue]
  rw [skipWs_cons c r (isWsN_false c (by omega))]
  simp only [if_neg e34, if_neg e91, if_neg e123, if_neg e110, if_neg e116, if_neg e102,
    if_neg e45, if_pos (show 48 ≤ c ∧ c ≤ 57 from ⟨h1, h2⟩)]

/-- Printed integers parse back, whatever well-delimited input follows. -/
theorem parseValue_printInt (i : Int) (f : Nat) (rest : List Nat)
    (hrest : numDelim rest = true) :
    parseValue (f + 1) (printInt i ++ rest) = some (Json.num i, rest) := by
  by_cases hneg : i < 0
  · rw [printInt, if_pos hneg, List.cons_append, parseValue_succ_minus]
    obtain ⟨d, t, hd, hd1, hd2⟩ := natToDigits_head i.natAbs
    have hpd : parseDigits (d :: (t ++ rest)) 0 = (i.natAbs, rest) := by
      rw [show d :: (t ++ rest) = natToDigits i.natAbs ++ rest from by rw [hd]; rfl]
      exact parseDigits_natToDigits i.natAbs rest hrest
    rw [hd, List.cons_append]
    simp only [if_pos (show 48 ≤ d ∧ d ≤ 57 from ⟨hd1, hd2⟩), hpd]
    rw [show -(i.natAbs : Int) = i from by omega]
  · rw [printInt, if_neg hneg]
    obtain ⟨d, t, hd, hd1, hd2⟩ := natToDigits_head i.toNat
    have hpd : parseDigits (d :: (t ++ rest)) 0 = (i.toNat, rest) := by
      rw [show d :: (t ++ rest) = natToDigits i.toNat ++ rest from by rw [hd]; rfl]
      exact parseDigits_natToDigits i.toNat rest hrest
    rw [hd, List.cons_append, parseValue_succ_digit f d (t ++ rest) hd1 hd2]
    simp only [hpd]
    rw [show (i.toNat : Int) = i from by omega]

/-! ### Codec round trip -/

/-- When the parsed value is a number, what follows may not begin with a
digit (the greedy digit scan would otherwise swallow it). -/
def numOk : Json → List Nat → Prop
  | .num _, d :: _ => ¬(48 ≤ d ∧ d ≤ 57)
  | _, _ => True

theorem numOk_of_head (v : Json) (d : Nat) (t : List Nat) (h : ¬(48 ≤ d ∧ d ≤ 57)) :
    numOk v (d :: t) := by
  cases v <;> trivial

theorem numOk_numDelim (i : Int) (rest : List Nat) (h : numOk (Json.num i) rest) :
    numDelim rest = true := by
  cases rest with
  | nil => rfl
  | cons d t =>
    have h' : ¬(48 ≤ d ∧ d ≤ 57) := h
    simp only [numDelim, Bool.not_eq_eq_eq_not, Bool.not_true, Bool.and_eq_false_iff,
      decide_eq_false_iff_not, not_le]
    omega

theorem jsonOkL_parts {x : Json} {xs : List Json} (h : jsonOkL (x :: xs) = true) :
    jsonOk x = true ∧ jsonOkL xs = true := by
  have h' : (jsonOk x && jsonOkL xs) = true := h
  simpa using h'

theorem jsonOkM_parts {k : List Nat} {v : Json} {kvs : List (List Nat × Json)}
    (h : jsonOkM ((k, v) :: kvs) = true) :
    strOk k = true ∧ jsonOk v = true ∧ jsonOkM kvs = true := by
  have h' : (strOk k && jsonOk v && jsonOkM kvs) = true := h
  simp only [Bool.and_eq_true] at h'
  exact ⟨h'.1.1, h'.1.2, h'.2⟩

theorem skipWs_printMember (k : List Nat) (v : Json) (z : List Nat) :
    skipWs (printMember (k, v) ++ z) = printMember (k, v) ++ z := by
  rw [show printMember (k, v) ++ z =
      34 :: ((escBody k ++ 34 :: 58 :: 32 :: printJson v) ++ z) from rfl]
  rw [skipWs_cons 34 _ (by decide)]

mutual

theorem rt_value : ∀ (v : Json) (fuel : Nat) (rest : List Nat),
    jsonOk v = true → (printJson v).length < fuel → numOk v rest →
    parseValue fuel (printJson v ++ rest) = some (v, rest)
  | .null, fuel, rest, _, hf, _ => by
    cases fuel with
    | zero => exact absurd hf (Nat.not_lt_zero _)
    | succ f => exact parseValue_succ_null f rest
  | .bool true, fuel, rest, _, hf, _ => by
    cases fuel with
    | zero => exact absurd hf (Nat.not_lt_zero _)
    | succ f => exact parseValue_succ_true f rest
  | .bool false, fuel, rest, _, hf, _ => by
    cases fuel with
    | zero => exact absurd hf (Nat.not_lt_zero _)
    | succ f => exact parseValue_succ_false f rest
  | .num i, fuel, rest, _, hf, hr => by
    cases fuel with
    | zero => exact absurd hf (Nat.not_lt_zero _)
    | succ f => exact parseValue_printInt i f rest (numOk_numDelim i rest hr)
  | .str s, fuel, rest, hok, hf, _ => by
    cases fuel with
    | zero => exact absurd hf (Nat.not_lt_zero _)
    | succ f =>
      rw [show printJson (Json.str s) ++ rest = 34 :: (escBody s ++ 34 :: rest) from by
        rw [show printJson (Json.str s) = 34 :: (escBody s ++ [34]) from rfl]
        simp [List.append_assoc]]
      rw [parseValue_succ_quote, parseStringBody_escBody s rest hok]
      rfl
  | .arr [], fuel, rest, _, hf, _ => by
    cases fuel with
    | zero => exact absurd hf (Nat.not_lt_zero _)
    | succ f =>
      rw [show printJson (Json.arr []) ++ rest = 91 :: (93 :: rest) from rfl]
      rw [parseValue_succ_arr, skipWs_cons 93 rest (by decide)]
      simp
  | .arr (x :: xs), fuel, rest, hok, hf, _ => by
    cases fuel with
    | zero => exact absurd hf (Nat.not_lt_zero _)
    | succ f =>
      obtain ⟨hokx, hokxs⟩ := jsonOkL_parts (show jsonOkL (x :: xs) = true from hok)
      obtain ⟨c, t, hct, hc1, hc2, hc93, hc125, hc44, hc58⟩ := printJson_head_bounds x
      have harg : printJson (Json.arr (x :: xs)) ++ rest =
          91 :: (printJson x ++ (printArrTail xs ++ 93 :: rest)) := by
        rw [show printJson (Json.arr (x :: xs)) =
            91 :: (printJson x ++ printArrTail xs ++ [93]) from rfl]
        simp [List.append_assoc]
      have hlen : (printJson (Json.arr (x :: xs))).length =
          (printJson x ++ printArrTail xs).length + 2 := by
        rw [show printJson (Json.arr (x :: xs)) =
            91 :: (printJson x ++ printArrTail xs ++ [93]) from rfl]
        simp
        omega
      rw [harg, parseValue_succ_arr, skipWs_print x (printArrTail xs ++ 93 :: rest), hct,
        List.cons_append]
      simp only [if_neg hc93]
      rw [rt_arr x xs f (c :: (t ++ (printArrTail xs ++ 93 :: rest))) rest hokx hokxs
        (by rw [hct, List.cons_append]) (by omega)]
      rfl
  | .obj [], fuel, rest, _, hf, _ => by
    cases fuel with
    | zero => exact absurd hf (Nat.not_lt_zero _)
    | succ f =>
      rw [show printJson (Json.obj []) ++ rest = 123 :: (125 :: rest) from rfl]
      rw [parseValue_succ_obj, skipWs_cons 125 rest (by decide)]
      simp
  | .obj ((k, v) :: kvs), fuel, rest, hok, hf, _ => by
    cases fuel with
    | zero => exact absurd hf (Nat.not_lt_zero _)
    | succ f =>
      obtain ⟨hk, hv, hkvs⟩ := jsonOkM_parts (show jsonOkM ((k, v) :: kvs) = true from hok)
      have harg : printJson (Json.obj ((k, v) :: kvs)) ++ rest =
          123 :: (printMember (k, v) ++ (printObjTail kvs ++ 125 :: rest)) := by
        rw [show printJson (Json.obj ((k, v) :: kvs)) =
            123 :: (printMember (k, v) ++ printObjTail kvs ++ [125]) from rfl]
        simp [List.append_assoc]
      have hlen : (printJson (Json.obj ((k, v) :: kvs))).length =
          (printMember (k, v) ++ printObjTail kvs).length + 2 := by
        rw [show printJson (Json.obj ((k, v) :: kvs)) =
            123 :: (printMember (k, v) ++ printObjTail kvs ++ [125]) from rfl]
        simp
        omega
      rw [harg, parseValue_succ_obj, skipWs_printMember k v (printObjTail kvs ++ 125 :: rest)]
      rw [show printMember (k, v) ++ (printObjTail kvs ++ 125 :: rest) =
          34 :: ((escBody k ++ 34 :: 58 :: 32 :: printJson v) ++
            (printObjTail kvs ++ 125 :: rest)) from rfl]
      simp only [if_neg (show ¬(34 : Nat) = 125 by omega)]
      rw [rt_obj (k, v) kvs f
        (34 :: ((escBody k ++ 34 :: 58 :: 32 :: printJson v) ++
          (printObjTail kvs ++ 125 :: rest))) rest hk hv hkvs rfl (by omega)]
      rfl
termination_by v _ _ _ _ _ => sizeOf v
decreasing_by
all_goals simp_wf
all_goals subst_vars
all_goals omega

theorem rt_arr : ∀ (x : Json) (xs : List Json) (fuel : Nat) (s rest : List Nat),
    jsonOk x = true → jsonOkL xs = true →
    s = printJson x ++ (printArrTail xs ++ 93 :: rest) →
    (printJson x ++ printArrTail xs).length + 1 < fuel →
    parseArrayRest fuel s = some (x :: xs, rest)
  | x, [], fuel, s, rest, hokx, _, hs, hf => by
    cases fuel with
    | zero => exact absurd hf (Nat.not_lt_zero _)
    | succ f =>
      rw [parseArrayRest_succ, hs, skipWs_print x (printArrTail [] ++ 93 :: rest)]
      have hfx : (printJson x).length < f := by
        have := List.length_append (printJson x) (printArrTail ([] : List Json))
        omega
      rw [rt_value x f (printArrTail [] ++ 93 :: rest) hokx hfx
        (numOk_of_head x 93 rest (by omega))]
      rw [show printArrTail ([] : List Json) ++ 93 :: rest = 93 :: rest from rfl]
      simp [skipWs_cons 93 rest (by decide)]
  | x, y :: ys, fuel, s, rest, hokx, hokxs, hs, hf => by
    cases fuel with
    | zero => exact absurd hf (Nat.not_lt_zero _)
    | succ f =>
      rw [parseArrayRest_succ, hs, skipWs_print x (printArrTail (y :: ys) ++ 93 :: rest)]
      have hfx : (printJson x).length < f := by
        have := List.length_append (printJson x) (printArrTail (y :: ys))
        omega
      rw [rt_value x f (printArrTail (y :: ys) ++ 93 :: rest) hokx hfx
        (numOk_of_head x 44 _ (by omega))]
      obtain ⟨hoky, hokys⟩ := jsonOkL_parts (show jsonOkL (y :: ys) = true from hokxs)
      rw [show printArrTail (y :: ys) ++ 93 :: rest =
          44 :: (32 :: (printJson y ++ (printArrTail ys ++ 93 :: rest))) from by
        rw [show printArrTail (y :: ys) =
            44 :: 32 :: (printJson y ++ printArrTail ys) from rfl]
        simp [List.append_assoc]]
      have hlen : (printJson x ++ printArrTail (y :: ys)).length =
          (printJson x).length + (printJson y ++ printArrTail ys).length + 2 := by
        rw [show printArrTail (y :: ys) =
            44 :: 32 :: (printJson y ++ printArrTail ys) from rfl]
        simp
        omega
      have hrec := rt_arr y ys f
        (skipWs (32 :: (printJson y ++ (printArrTail ys ++ 93 :: rest)))) rest hoky hokys
        (by
          rw [show skipWs (32 :: (printJson y ++ (printArrTail ys ++ 93 :: rest))) =
              skipWs (printJson y ++ (printArrTail ys ++ 93 :: rest)) from rfl]
          exact skipWs_print y _)
        (by omega)
      simp [skipWs_cons 44 _ (by decide), hrec]
termination_by x xs _ _ _ _ _ _ _ => sizeOf x + sizeOf xs

theorem rt_obj : ∀ (kv : List Nat × Json) (kvs : List (List Nat × Json)) (fuel : Nat)
    (s rest : List Nat),
    strOk kv.1 = true → jsonOk kv.2 = true → jsonOkM kvs = true →
    s = printMember kv ++ (printObjTail kvs ++ 125 :: rest) →
    (printMember kv ++ printObjTail kvs).length + 1 < fuel →
    parseObjRest fuel s = some (kv :: kvs, rest)
  | (k, v), [], fuel, s, rest, hk, hv, _, hs, hf => by
    cases fuel with
    | zero => exact absurd hf (Nat.not_lt_zero _)
    | succ f =>
      rw [parseObjRest_succ, hs,
        skipWs_printMember k v (printObjTail [] ++ 125 :: rest)]
      rw [show printMember (k, v) ++ (printObjTail [] ++ 125 :: rest) =
          34 :: (escBody k ++ 34 :: (58 :: (32 :: (printJson v ++
            (printObjTail ([] : List (List Nat × Json)) ++ 125 :: rest))))) from by
        rw [show printMember (k, v) =
            34 :: (escBody k ++ 34 :: 58 :: 32 :: printJson v) from rfl]
        simp [List.append_assoc]]
      simp only [if_pos rfl]
      rw [parseStringBody_escBody k _ hk]
      have hmemlen : (printMember (k, v)).length =
          (escBody k).length + (printJson v).length + 4 := by
        rw [show printMember (k, v) =
            34 :: (escBody k ++ 34 :: 58 :: 32 :: printJson v) from rfl]
        simp
        omega
      have hfv : (printJson v).length < f := by
        have := List.length_append (printMember (k, v))
          (printObjTail ([] : List (List Nat × Json)))
        omega
      have hval := rt_value v f (printObjTail [] ++ 125 :: rest) hv hfv
        (numOk_of_head v 125 rest (by omega))
      have hskip32 : skipWs (32 :: (printJson v ++
          (printObjTail ([] : List (List Nat × Json)) ++ 125 :: rest))) =
          printJson v ++ (printObjTail ([] : List (List Nat × Json)) ++ 125 :: rest) := by
        rw [show skipWs (32 :: (printJson v ++
            (printObjTail ([] : List (List Nat × Json)) ++ 125 :: rest))) =
            skipWs (printJson v ++
              (printObjTail ([] : List (List Nat × Json)) ++ 125 :: rest)) from rfl]
        exact skipWs_print v _
      simp only [skipWs_cons 58 _ (by decide), if_pos rfl, hskip32, hval]
      rw [show printObjTail ([] : List (List Nat × Json)) ++ 125 :: rest =
          125 :: rest from rfl]
      simp [skipWs_cons 125 rest (by decide)]
  | (k, v), (k2, v2) :: kvs2, fuel, s, rest, hk, hv, hkvs, hs, hf => by
    cases fuel with
    | zero => exact absurd hf (Nat.not_lt_zero _)
    | succ f =>
      rw [parseObjRest_succ, hs,
        skipWs_printMember k v (printObjTail ((k2, v2) :: kvs2) ++ 125 :: rest)]
      rw [show printMember (k, v) ++ (printObjTail ((k2, v2) :: kvs2) ++ 125 :: rest) =
          34 :: (escBody k ++ 34 :: (58 :: (32 :: (printJson v ++
            (printObjTail ((k2, v2) :: kvs2) ++ 125 :: rest))))) from by
        rw [show printMember (k, v) =
            34 :: (escBody k ++ 34 :: 58 :: 32 :: printJson v) from rfl]
        simp [List.append_assoc]]
      simp only [if_pos rfl]
      rw [parseStringBody_escBody k _ hk]
      obtain ⟨hk2, hv2, hkvs2⟩ := jsonOkM_parts
        (show jsonOkM ((k2, v2) :: kvs2) = true from hkvs)
      have hmemlen : (printMember (k, v)).length =
          (escBody k).length + (printJson v).length + 4 := by
        rw [show printMember (k, v) =
            34 :: (escBody k ++ 34 :: 58 :: 32 :: printJson v) from rfl]
        simp
        omega
      have hfv : (printJson v).length < f := by
        have := List.length_append (printMember (k, v)) (printObjTail ((k2, v2) :: kvs2))
        omega
      have hval := rt_value v f (printObjTail ((k2, v2) :: kvs2) ++ 125 :: rest) hv hfv
        (numOk_of_head v 44 _ (by omega))
      have hskip32 : skipWs (32 :: (printJson v ++
          (printObjTail ((k2, v2) :: kvs2) ++ 125 :: rest))) =
          printJson v ++ (printObjTail ((k2, v2) :: kvs2) ++ 125 :: rest) := by
        rw [show skipWs (32 :: (printJson v ++
            (printObjTail ((k2, v2) :: kvs2) ++ 125 :: rest))) =
            skipWs (printJson v ++
              (printObjTail ((k2, v2) :: kvs2) ++ 125 :: rest)) from rfl]
        exact skipWs_print v _
      simp only [skipWs_cons 58 _ (by decide), if_pos rfl, hskip32, hval]
      rw [show printObjTail ((k2, v2) :: kvs2) ++ 125 :: rest =
          44 :: (32 :: (printMember (k2, v2) ++ (printObjTail kvs2 ++ 125 :: rest))) from by
        rw [show printObjTail ((k2, v2) :: kvs2) =
            44 :: 32 :: (printMember (k2, v2) ++ printObjTail kvs2) from rfl]
        simp [List.append_assoc]]
      have hlen2 : (printMember (k, v) ++ printObjTail ((k2, v2) :: kvs2)).length =
          (printMember (k, v)).length +
            (printMember (k2, v2) ++ printObjTail kvs2).length + 2 := by
        rw [show printObjTail ((k2, v2) :: kvs2) =
            44 :: 32 :: (printMember (k2, v2) ++ printObjTail kvs2) from rfl]
        simp
        omega
      have hrec := rt_obj (k2, v2) kvs2 f
        (skipWs (32 :: (printMember (k2, v2) ++ (printObjTail kvs2 ++ 125 :: rest)))) rest
        hk2 hv2 hkvs2
        (by
          rw [show skipWs (32 :: (printMember (k2, v2) ++
              (printObjTail kvs2 ++ 125 :: rest))) =
            skipWs (printMember (k2, v2) ++ (printObjTail kvs2 ++ 125 :: rest)) from rfl]
          exact skipWs_printMember k2 v2 _)
        (by omega)
      simp [skipWs_cons 44 _ (by decide), hrec]
termination_by kv kvs _ _ _ _ _ _ _ _ => sizeOf kv + sizeOf kvs

end

theorem json_loads_dumps (r : Json) (hok : jsonOk r = true) :
    json_loads (json_dumps r) = some r := by
  rw [json_loads, json_dumps]
  have h := rt_value r ((printJson r).length + 1) [] hok (by omega) (by cases r <;> trivial)
  rw [List.append_nil] at h
  rw [h]
  rfl

/-! ### Compression and UTF-8 round trips -/

theorem zlib_decompress_pairs (ps : List (Nat × Nat)) :
    zlib_decompress (ps.flatMap (fun p => [p.1, p.2])) =
      some (ps.flatMap (fun p => List.replicate p.1 p.2)) := by
  induction ps with
  | nil => rfl
  | cons p ps ih =>
    obtain ⟨n, v⟩ := p
    rw [List.flatMap_cons, List.flatMap_cons]
    rw [show [(n, v).1, (n, v).2] ++ ps.flatMap (fun p => [p.1, p.2]) =
        n :: v :: ps.flatMap (fun p => [p.1, p.2]) from rfl]
    rw [show ∀ X, zlib_decompress (n :: v :: X) =
        (zlib_decompress X).map (fun bs => List.replicate n v ++ bs) from fun X => rfl]
    rw [ih]
    rfl

theorem rleStep_expand (b : Nat) (ps : List (Nat × Nat)) :
    (rleStep b ps).flatMap (fun p => List.replicate p.1 p.2) =
      b :: ps.flatMap (fun p => List.replicate p.1 p.2) := by
  cases ps with
  | nil => rfl
  | cons q qs =>
    obtain ⟨n, v⟩ := q
    rw [rleStep]
    by_cases h : v = b ∧ n < 255
    · rw [if_pos h]
      obtain ⟨hv, _⟩ := h
      subst hv
      rw [List.flatMap_cons, List.flatMap_cons]
      simp [List.replicate_succ]
    · rw [if_neg h]
      rw [List.flatMap_cons, List.flatMap_cons]
      rfl

theorem rleEncode_expand (bs : List Nat) :
    (rleEncode bs).flatMap (fun p => List.replicate p.1 p.2) = bs := by
  induction bs with
  | nil => rfl
  | cons b t ih =>
    rw [rleEncode, List.foldr_cons]
    rw [show List.foldr rleStep [] t = rleEncode t from rfl]
    rw [rleStep_expand, ih]

/-- The compression model is lossless. -/
theorem zlib_round_trip (bs : List Nat) : zlib_decompress (zlib_compress bs) = some bs := by
  rw [zlib_compress, zlib_decompress_pairs, rleEncode_expand]

theorem utf8EncodeCp_length_pos (c : Nat) : 1 ≤ (utf8EncodeCp c).length := by
  rw [utf8EncodeCp]
  split_ifs <;> simp

theorem utf8Encode_length_ge (s : List Nat) : s.length ≤ (utf8Encode s).length := by
  induction s with
  | nil => simp [utf8Encode]
  | cons c t ih =>
    rw [utf8Encode, List.flatMap_cons, List.length_append, List.length_cons]
    have h1 := utf8EncodeCp_length_pos c
    have : (t.flatMap utf8EncodeCp).length = (utf8Encode t).length := rfl
    omega

theorem utf8DecodeAux_ascii : ∀ (s : List Nat) (fuel : Nat), (∀ c ∈ s, c < 128) →
    s.length ≤ fuel → utf8DecodeAux fuel (utf8Encode s) = some s := by
  intro s
  induction s with
  | nil => intro fuel _ _; cases fuel <;> rfl
  | cons c t ih =>
    intro fuel h hlen
    cases fuel with
    | zero => simp at hlen
    | succ f =>
      have hc := h c (by simp)
      rw [utf8Encode, List.flatMap_cons]
      rw [show utf8EncodeCp c = [c] from by rw [utf8EncodeCp, if_pos hc]]
      rw [show [c] ++ t.flatMap utf8EncodeCp = c :: t.flatMap utf8EncodeCp from rfl]
      rw [show t.flatMap utf8EncodeCp = utf8Encode t from rfl]
      rw [show utf8DecodeAux (f + 1) (c :: utf8Encode t) =
          if c < 128 then (utf8DecodeAux f (utf8Encode t)).map (c :: ·)
          else if c < 192 then none
          else if c < 224 then
            (match utf8Encode t with
            | b1 :: rest1 =>
              if 128 ≤ b1 ∧ b1 < 192 then
                (utf8DecodeAux f rest1).map (((c - 192) * 64 + (b1 - 128)) :: ·)
              else none
            | _ => none)
          else if c < 240 then
            (match utf8Encode t with
            | b1 :: b2 :: rest2 =>
              if (128 ≤ b1 ∧ b1 < 192) ∧ (128 ≤ b2 ∧ b2 < 192) then
                (utf8DecodeAux f rest2).map
                  ((((c - 224) * 64 + (b1 - 128)) * 64 + (b2 - 128)) :: ·)
              else none
            | _ => none)
          else
            (match utf8Encode t with
            | b1 :: b2 :: b3 :: rest3 =>
              if (128 ≤ b1 ∧ b1 < 192) ∧ (128 ≤ b2 ∧ b2 < 192) ∧ (128 ≤ b3 ∧ b3 < 192) then
                (utf8DecodeAux f rest3).map
                  (((((c - 240) * 64 + (b1 - 128)) * 64 + (b2 - 128)) * 64 + (b3 - 128)) :: ·)
              else none
            | _ => none) from rfl]
      rw [if_pos hc, ih f (fun x hx => h x (by simp [hx])) (by simp at hlen; omega)]
      rfl

/-- UTF-8 is the identity on ASCII-only text, byte for byte. -/
theorem utf8_round_trip_ascii (s : List Nat) (h : ∀ c ∈ s, c < 128) :
    utf8Decode (utf8Encode s) = some s := by
  rw [utf8Decode]
  exact utf8DecodeAux_ascii s (utf8Encode s).length h (utf8Encode_length_ge s)

/-! ### The serializer emits ASCII only (`ensure_ascii`) -/

theorem hexDigit_ascii (v : Nat) (h : v < 16) : hexDigit v < 128 := by
  rw [hexDigit]
  split <;> omega

theorem hex4_ascii (n : Nat) : ∀ b ∈ hex4 n, b < 128 := by
  intro b hb
  simp only [hex4, List.mem_cons, List.mem_singleton, List.not_mem_nil, or_false] at hb
  rcases hb with h | h | h | h <;> subst h <;>
    exact hexDigit_ascii _ (Nat.mod_lt _ (by omega))

theorem escapeCp_ascii (c : Nat) : ∀ b ∈ escapeCp c, b < 128 := by
  intro b hb
  rw [escapeCp] at hb
  split_ifs at hb with h1 h2 h3 h4 h5 h6 h7 h8 h9
  · rcases List.mem_cons.mp hb with h | h
    · omega
    · simp only [List.mem_singleton] at h; omega
  · rcases List.mem_cons.mp hb with h | h
    · omega
    · simp only [List.mem_singleton] at h; omega
  · rcases List.mem_cons.mp hb with h | h
    · omega
    · simp only [List.mem_singleton] at h; omega
  · rcases List.mem_cons.mp hb with h | h
    · omega
    · simp only [List.mem_singleton] at h; omega
  · rcases List.mem_cons.mp hb with h | h
    · omega
    · simp only [List.mem_singleton] at h; omega
  · rcases List.mem_cons.mp hb with h | h
    · omega
    · simp only [List.mem_singleton] at h; omega
  · rcases List.mem_cons.mp hb with h | h
    · omega
    · simp only [List.mem_singleton] at h; omega
  · simp only [List.mem_singleton] at hb; omega
  · rcases List.mem_cons.mp hb with h | h
    · omega
    rcases List.mem_cons.mp h with h | h
    · omega
    · exact hex4_ascii _ _ h
  · rw [show (92 :: 117 :: hex4 (55296 + (c - 65536) / 1024) ++
        92 :: 117 :: hex4 (56320 + (c - 65536) % 1024)) =
        92 :: (117 :: (hex4 (55296 + (c - 65536) / 1024) ++
          92 :: 117 :: hex4 (56320 + (c - 65536) % 1024))) from by
      simp [List.cons_append]] at hb
    rcases List.mem_cons.mp hb with h | h
    · omega
    rcases List.mem_cons.mp h with h | h
    · omega
    rcases List.mem_append.mp h with h | h
    · exact hex4_ascii _ _ h
    rcases List.mem_cons.mp h with h | h
    · omega
    rcases List.mem_cons.mp h with h | h
    · omega
    · exact hex4_ascii _ _ h

theorem escBody_ascii (s : List Nat) : ∀ b ∈ escBody s, b < 128 := by
  intro b hb
  rw [escBody] at hb
  obtain ⟨c, _, hbc⟩ := List.mem_flatMap.mp hb
  exact escapeCp_ascii c b hbc

theorem printInt_ascii (i : Int) : ∀ b ∈ printInt i, b < 128 := by
  intro b hb
  rw [printInt] at hb
  split_ifs at hb with h
  · rcases List.mem_cons.mp hb with h' | h'
    · omega
    · have := natToDigits_digits i.natAbs b h'
      omega
  · have := natToDigits_digits i.toNat b hb
    omega

mutual

theorem printJson_ascii : ∀ (v : Json), ∀ b ∈ printJson v, b < 128
  | .null, b, hb => by
    rw [show printJson Json.null = [110, 117, 108, 108] from rfl] at hb
    simp only [List.mem_cons, List.not_mem_nil, or_false] at hb
    omega
  | .bool true, b, hb => by
    rw [show printJson (Json.bool true) = [116, 114, 117, 101] from rfl] at hb
    simp only [List.mem_cons, List.not_mem_nil, or_false] at hb
    omega
  | .bool false, b, hb => by
    rw [show printJson (Json.bool false) = [102, 97, 108, 115, 101] from rfl] at hb
    simp only [List.mem_cons, List.not_mem_nil, or_false] at hb
    omega
  | .num i, b, hb => printInt_ascii i b hb
  | .str s, b, hb => by
    rw [show printJson (Json.str s) = 34 :: (escBody s ++ [34]) from rfl] at hb
    rcases List.mem_cons.mp hb with h | h
    · omega
    rcases List.mem_append.mp h with h | h
    · exact escBody_ascii s b h
    · simp only [List.mem_singleton] at h; omega
  | .arr [], b, hb => by
    rw [show printJson (Json.arr []) = [91, 93] from rfl] at hb
    simp only [List.mem_cons, List.not_mem_nil, or_false] at hb
    omega
  | .arr (x :: xs), b, hb => by
    rw [show printJson (Json.arr (x :: xs)) =
        91 :: (printJson x ++ printArrTail xs ++ [93]) from rfl] at hb
    rcases List.mem_cons.mp hb with h | h
    · omega
    rcases List.mem_append.mp h with h | h
    · rcases List.mem_append.mp h with h | h
      · exact printJson_ascii x b h
      · exact printArrTail_ascii xs b h
    · simp only [List.mem_singleton] at h; omega
  | .obj [], b, hb => by
    rw [show printJson (Json.obj []) = [123, 125] from rfl] at hb
    simp only [List.mem_cons, List.not_mem_nil, or_false] at hb
    omega
  | .obj (kv :: kvs), b, hb => by
    rw [show printJson (Json.obj (kv :: kvs)) =
        123 :: (printMember kv ++ printObjTail kvs ++ [125]) from rfl] at hb
    rcases List.mem_cons.mp hb with h | h
    · omega
    rcases List.mem_append.mp h with h | h
    · rcases List.mem_append.mp h with h | h
      · exact printMember_ascii kv b h
      · exact printObjTail_ascii kvs b h
    · simp only [List.mem_singleton] at h; omega

theorem printArrTail_ascii : ∀ (xs : List Json), ∀ b ∈ printArrTail xs, b < 128
  | [], b, hb => by
    rw [show printArrTail ([] : List Json) = [] from rfl] at hb
    exact absurd hb (List.not_mem_nil b)
  | x :: xs, b, hb => by
    rw [show printArrTail (x :: xs) = 44 :: 32 :: (printJson x ++ printArrTail xs) from rfl]
      at hb
    rcases List.mem_cons.mp hb with h | h
    · omega
    rcases List.mem_cons.mp h with h | h
    · omega
    rcases List.mem_append.mp h with h | h
    · exact printJson_ascii x b h
    · exact printArrTail_ascii xs b h

theorem printMember_ascii : ∀ (kv : List Nat × Json), ∀ b ∈ printMember kv, b < 128
  | (k, v), b, hb => by
    rw [show printMember (k, v) =
        34 :: (escBody k ++ 34 :: 58 :: 32 :: printJson v) from rfl] at hb
    rcases List.mem_cons.mp hb with h | h
    · omega
    rcases List.mem_append.mp h with h | h
    · exact escBody_ascii k b h
    rcases List.mem_cons.mp h with h | h
    · omega
    rcases List.mem_cons.mp h with h | h
    · omega
    rcases List.mem_cons.mp h with h | h
    · omega
    · exact printJson_ascii v b h

theorem printObjTail_ascii : ∀ (kvs : List (List Nat × Json)), ∀ b ∈ printObjTail kvs, b < 128
  | [], b, hb => by
    rw [show printObjTail ([] : List (List Nat × Json)) = [] from rfl] at hb
    exact absurd hb (List.not_mem_nil b)
  | kv :: kvs, b, hb => by
    rw [show printObjTail (kv :: kvs) = 44 :: 32 :: (printMember kv ++ printObjTail kvs)
      from rfl] at hb
    rcases List.mem_cons.mp hb with h | h
    · omega
    rcases List.mem_cons.mp h with h | h
    · omega
    rcases List.mem_append.mp h with h | h
    · exact printMember_ascii kv b h
    · exact printObjTail_ascii kvs b h

end

/-- The codec chain of the two controllers: decoding a written payload
recovers the record. -/
theorem read_decode_set_payload (r : Json) (hok : jsonOk r = true) :
    read_decode (set_payload r) = some r := by
  rw [set_payload, read_decode, zlib_round_trip]
  rw [Option.some_bind]
  rw [utf8_round_trip_ascii (json_dumps r) (fun c hc => printJson_ascii r c hc)]
  rw [Option.some_bind]
  exact json_loads_dumps r hok

/-! ### Normalization lemmas -/

theorem normalizeStep_obj (cid : List Nat) (kvs : List (List Nat × Json)) :
    normalizeStep cid (Json.obj kvs) =
      (match (pyIterate (dictGet kvs kActiveAddons (Json.arr []))).bind extractAddonsList with
      | .error e => .error e
      | .ok addon_ids =>
        .ok
          { client_id := cid
            geo_city := dictGet kvs kCity (Json.str [])
            subsession_length := dictGet kvs kSubsessionLength (Json.num 0)
            locale := dictGet kvs kLocale (Json.str [])
            os := dictGet kvs kOs (Json.str [])
            installed_addons := addon_ids
            disabled_addons_ids := dictGet kvs kDisabledAddonsIds (Json.arr [])
            bookmark_count := dictGet kvs kPlacesBookmarksCount (Json.num 0)
            tab_open_count := dictGet kvs kTabOpenCount (Json.num 0)
            total_uri := dictGet kvs kTotalUri (Json.num 0)
            unique_tlds := dictGet kvs kUniqueTlds (Json.num 0) }) := rfl

/-- An entry that is a mapping with `addon_id` never makes the comprehension
step raise. -/
theorem addonStep_ok (a : Json) (h : entryOk a = true) : ∃ o, addonStep a = Except.ok o := by
  cases a with
  | obj m =>
    rw [addonStep]
    by_cases hsys : truthy (dictGet m kIsSystem (Json.bool false))
    · exact ⟨none, by rw [if_pos hsys]⟩
    · rw [if_neg hsys]
      have h' : (lookupA m kAddonId).isSome = true := h
      cases hlk : lookupA m kAddonId with
      | none => rw [hlk] at h'; cases h'
      | some v => exact ⟨some v, rfl⟩
  | null => cases h
  | bool b => cases h
  | num n => cases h
  | str s => cases h
  | arr xs => cases h

theorem extractAddonsList_ok : ∀ entries : List Json, entries.all entryOk = true →
    ∃ l, extractAddonsList entries = Except.ok l
  | [], _ => ⟨[], rfl⟩
  | a :: rest, h => by
    simp only [List.all_cons, Bool.and_eq_true] at h
    obtain ⟨l, hl⟩ := extractAddonsList_ok rest h.2
    obtain ⟨o, ho⟩ := addonStep_ok a h.1
    cases o with
    | none => exact ⟨l, by rw [extractAddonsList, ho, hl]⟩
    | some v => exact ⟨v :: l, by rw [extractAddonsList, ho, hl]; rfl⟩

theorem spec_addon_included_eq (m : List (List Nat × Json)) :
    spec_addon_included (Json.obj m) = !truthy (dictGet m kIsSystem (Json.bool false)) := by
  cases hlk : lookupA m kIsSystem with
  | none => simp [spec_addon_included, dictGet, hlk, truthy]
  | some v => simp [spec_addon_included, dictGet, hlk]

/-- The comprehension computes the spec's filtered projection, in source
order, whenever every entry is a mapping with `addon_id`. -/
theorem extractAddonsList_spec : ∀ entries : List Json, entries.all entryOk = true →
    extractAddonsList entries =
      Except.ok ((entries.filter spec_addon_included).map spec_addon_id)
  | [], _ => rfl
  | a :: rest, h => by
    simp only [List.all_cons, Bool.and_eq_true] at h
    have ih := extractAddonsList_spec rest h.2
    cases a with
    | obj m =>
      by_cases hsys : truthy (dictGet m kIsSystem (Json.bool false)) = true
      · have hstep : addonStep (Json.obj m) = Except.ok none := by
          rw [addonStep, if_pos hsys]
        have hfil : spec_addon_included (Json.obj m) = false := by
          rw [spec_addon_included_eq, hsys]
          rfl
        rw [extractAddonsList, hstep, ih, List.filter_cons_of_neg (by rw [hfil]; decide)]
      · have hf : truthy (dictGet m kIsSystem (Json.bool false)) = false :=
          Bool.eq_false_iff.mpr hsys
        have h' : (lookupA m kAddonId).isSome = true := h.1
        cases hlk : lookupA m kAddonId with
        | none => rw [hlk] at h'; cases h'
        | some v =>
          have hstep : addonStep (Json.obj m) = Except.ok (some v) := by
            rw [addonStep, if_neg hsys, hlk]
          have hfil : spec_addon_included (Json.obj m) = true := by
            rw [spec_addon_included_eq, hf]
            rfl
          have hid : spec_addon_id (Json.obj m) = v := by
            simp [spec_addon_id, hlk]
          rw [extractAddonsList, hstep, ih,
            List.filter_cons_of_pos hfil, List.map_cons, hid]
          rfl
    | null => cases h.1
    | bool b => cases h.1
    | num n => cases h.1
    | str s => cases h.1
    | arr xs => cases h.1

/-- Whatever the raw record, a normalized result carries the requested
client identifier. -/
theorem normalizeStep_client_id (cid : List Nat) (pd : Json) (q : NormalizedProfile)
    (h : normalizeStep cid pd = Except.ok q) : q.client_id = cid := by
  cases pd with
  | obj kvs =>
    rw [normalizeStep_obj] at h
    cases hbind : (pyIterate (dictGet kvs kActiveAddons (Json.arr []))).bind
        extractAddonsList with
    | error e => rw [hbind] at h; cases h
    | ok l =>
      rw [hbind] at h
      cases h
      rfl
  | null => exact Except.noConfusion h
  | bool b => exact Except.noConfusion h
  | num n => exact Except.noConfusion h
  | str s => exact Except.noConfusion h
  | arr xs => exact Except.noConfusion h

/-- The fetcher on a non-test identifier: the short-circuit does not fire, so
the call is the cached-or-default backend lookup followed by the `None` check
and normalization, with the chosen backend cached afterwards. -/
theorem ProfileFetcher_get_nontest (ts : TestSets) (dflt : Backend) (st : FetcherState)
    (cid : List Nat) (h1 : cid ∉ ts.testIds) (h2 : cid ∉ ts.emptyTestIds) :
    ProfileFetcher_get ts dflt st cid =
      (match (st.client.getD dflt) cid with
      | .error e => (.error e, (⟨some (st.client.getD dflt)⟩ : FetcherState))
      | .ok none => (.ok none, (⟨some (st.client.getD dflt)⟩ : FetcherState))
      | .ok (some pd) =>
        ((normalizeStep cid pd).map some, (⟨some (st.client.getD dflt)⟩ : FetcherState))) := by
  rw [ProfileFetcher_get, if_neg (by rintro (h | h); exacts [h1 h, h2 h])]

/-! ### The claims -/

/-- C1 counterexample: as stated over every backend the claim is false —
`ProfileFetcher.get` wraps the backend call in no `try`, so a backend whose
`get_client_profile` raises (here a transport error) propagates the raise to
the caller instead of returning absence. -/
theorem C1_counterexample :
    (ProfileFetcher_get ⟨[], []⟩ (fun _ => Except.ok none)
      ⟨some fun _ => Except.error PyErr.transport⟩ (s2n "some-client")).1 =
      Except.error PyErr.transport := rfl

/-- C1 (amended): the absence guarantee holds exactly when the backend itself
swallows its failures, as the key-value (DynamoDB) controller does: with that
backend installed, any internal read failure (transport, missing key, decode)
reaches the caller of `ProfileFetcher.get` as `None`, never as a raise. -/
theorem C1_amended_theorem (ts : TestSets) (dflt : Backend)
    (t : List Nat → DDBResponse) (st : FetcherState) (cid : List Nat)
    (hst : st.client = some (ddbBackend t))
    (h1 : cid ∉ ts.testIds) (h2 : cid ∉ ts.emptyTestIds)
    (herr : ∃ e, ddb_read_raw t cid = Except.error e) :
    (ProfileFetcher_get ts dflt st cid).1 = Except.ok none := by
  obtain ⟨e, he⟩ := herr
  have hnone : ProfileController_get_client_profile t cid = none := by
    rw [ProfileController_get_client_profile, he]
  rw [ProfileFetcher_get_nontest ts dflt st cid h1 h2, hst]
  have hb : ((some (ddbBackend t)).getD dflt) cid = Except.ok none := by
    show Except.ok (ProfileController_get_client_profile t cid) = Except.ok none
    rw [hnone]
  rw [hb]

theorem C1_witness :
    (ProfileFetcher_get ⟨[], []⟩ (fun _ => Except.ok none)
      ⟨some (ddbBackend fun _ => DDBResponse.raise PyErr.transport)⟩ (s2n "xw")).1 =
      Except.ok none :=
  C1_amended_theorem ⟨[], []⟩ (fun _ => Except.ok none)
    (fun _ => DDBResponse.raise PyErr.transport)
    ⟨some (ddbBackend fun _ => DDBResponse.raise PyErr.transport)⟩ (s2n "xw")
    rfl (by simp) (by simp) ⟨PyErr.transport, rfl⟩

/-- C2: the claim says a client identifier with no row in the wide-column
store yields absence, but `row` is `None` then and the unguarded
`row.cells[...]` raises `AttributeError`: the code raises where the spec
promises absence. -/
theorem C2_missing_row_attribute_error :
    BigTableProfileController_get_client_profile (fun _ => none) (s2n "unknown-client") =
      Except.error PyErr.attributeError := rfl

/-- C3 counterexample: normalization is not total — an `active_addons` entry
that is a dict without `"addon_id"` passes the `is_system` filter and then
`addon["addon_id"]` raises `KeyError`. -/
theorem C3_counterexample :
    normalizeStep (s2n "cid3") (Json.obj [(kActiveAddons, Json.arr [Json.obj []])]) =
      Except.error PyErr.keyError := rfl

/-- C3 (amended): normalization succeeds, and each absent source field yields
its stated default, provided `active_addons` is absent or is a list of dicts
each carrying `"addon_id"` — only the `.get`-style lookups are total; the
comprehension over `active_addons` is not. -/
theorem C3_amended_theorem (cid : List Nat) (kvs : List (List Nat × Json))
    (hshape : addonsShapeOk kvs = true) :
    ∃ p, normalizeStep cid (Json.obj kvs) = Except.ok p ∧
      (lookupA kvs kCity = none → p.geo_city = Json.str []) ∧
      (lookupA kvs kSubsessionLength = none → p.subsession_length = Json.num 0) ∧
      (lookupA kvs kLocale = none → p.locale = Json.str []) ∧
      (lookupA kvs kOs = none → p.os = Json.str []) ∧
      (lookupA kvs kActiveAddons = none → p.installed_addons = []) ∧
      (lookupA kvs kDisabledAddonsIds = none → p.disabled_addons_ids = Json.arr []) ∧
      (lookupA kvs kPlacesBookmarksCount = none → p.bookmark_count = Json.num 0) ∧
      (lookupA kvs kTabOpenCount = none → p.tab_open_count = Json.num 0) ∧
      (lookupA kvs kTotalUri = none → p.total_uri = Json.num 0) ∧
      (lookupA kvs kUniqueTlds = none → p.unique_tlds = Json.num 0) := by
  have hmain : ∃ l, (pyIterate (dictGet kvs kActiveAddons (Json.arr []))).bind
      extractAddonsList = Except.ok l ∧ (lookupA kvs kActiveAddons = none → l = []) := by
    cases hlk : lookupA kvs kActiveAddons with
    | none =>
      refine ⟨[], ?_, fun _ => rfl⟩
      rw [dictGet, hlk]
      rfl
    | some v =>
      rw [addonsShapeOk, hlk] at hshape
      cases v with
      | arr xs =>
        obtain ⟨l, hl⟩ := extractAddonsList_ok xs hshape
        refine ⟨l, ?_, fun hn => Option.noConfusion hn⟩
        rw [dictGet, hlk]
        exact hl
      | null => exact Bool.noConfusion hshape
      | bool b => exact Bool.noConfusion hshape
      | num n => exact Bool.noConfusion hshape
      | str s => exact Bool.noConfusion hshape
      | obj m => exact Bool.noConfusion hshape
  obtain ⟨l, hbind, hnil⟩ := hmain
  refine ⟨{ client_id := cid
            geo_city := dictGet kvs kCity (Json.str [])
            subsession_length := dictGet kvs kSubsessionLength (Json.num 0)
            locale := dictGet kvs kLocale (Json.str [])
            os := dictGet kvs kOs (Json.str [])
            installed_addons := l
            disabled_addons_ids := dictGet kvs kDisabledAddonsIds (Json.arr [])
            bookmark_count := dictGet kvs kPlacesBookmarksCount (Json.num 0)
            tab_open_count := dictGet kvs kTabOpenCount (Json.num 0)
            total_uri := dictGet kvs kTotalUri (Json.num 0)
            unique_tlds := dictGet kvs kUniqueTlds (Json.num 0) },
    ?_, ?_, ?_, ?_, ?_, ?_, ?_, ?_, ?_, ?_, ?_⟩
  · rw [normalizeStep_obj, hbind]
  · intro hc; simp [dictGet, hc]
  · intro hc; simp [dictGet, hc]
  · intro hc; simp [dictGet, hc]
  · intro hc; simp [dictGet, hc]
  · exact fun hn => hnil hn
  · intro hc; simp [dictGet, hc]
  · intro hc; simp [dictGet, hc]
  · intro hc; simp [dictGet, hc]
  · intro hc; simp [dictGet, hc]
  · intro hc; simp [dictGet, hc]

theorem C3_witness :
    addonsShapeOk [(kLocale, Json.str (s2n "fr"))] = true ∧
    ∃ p, normalizeStep (s2n "cw3") (Json.obj [(kLocale, Json.str (s2n "fr"))]) =
        Except.ok p ∧
      (lookupA [(kLocale, Json.str (s2n "fr"))] kCity = none → p.geo_city = Json.str []) ∧
      (lookupA [(kLocale, Json.str (s2n "fr"))] kSubsessionLength = none →
        p.subsession_length = Json.num 0) ∧
      (lookupA [(kLocale, Json.str (s2n "fr"))] kLocale = none → p.locale = Json.str []) ∧
      (lookupA [(kLocale, Json.str (s2n "fr"))] kOs = none → p.os = Json.str []) ∧
      (lookupA [(kLocale, Json.str (s2n "fr"))] kActiveAddons = none →
        p.installed_addons = []) ∧
      (lookupA [(kLocale, Json.str (s2n "fr"))] kDisabledAddonsIds = none →
        p.disabled_addons_ids = Json.arr []) ∧
      (lookupA [(kLocale, Json.str (s2n "fr"))] kPlacesBookmarksCount = none →
        p.bookmark_count = Json.num 0) ∧
      (lookupA [(kLocale, Json.str (s2n "fr"))] kTabOpenCount = none →
        p.tab_open_count = Json.num 0) ∧
      (lookupA [(kLocale, Json.str (s2n "fr"))] kTotalUri = none →
        p.total_uri = Json.num 0) ∧
      (lookupA [(kLocale, Json.str (s2n "fr"))] kUniqueTlds = none →
        p.unique_tlds = Json.num 0) :=
  ⟨rfl, C3_amended_theorem (s2n "cw3") [(kLocale, Json.str (s2n "fr"))] rfl⟩

/-- C4: for a client identifier in either reserved test set the fetcher
returns the fixed synthetic profile — same value whichever set matched — with
the fetcher state left untouched and the backend argument arbitrary (so
nothing is invoked, constructed, or cached). -/
theorem C4_test_ids_short_circuit (ts : TestSets) (dflt : Backend) (st : FetcherState)
    (cid : List Nat) (h : cid ∈ ts.testIds ∨ cid ∈ ts.emptyTestIds) :
    ProfileFetcher_get ts dflt st cid =
      (Except.ok (some
        { client_id := cid
          geo_city := Json.str (s2n "Toronto")
          subsession_length := Json.num 42
          locale := Json.str (s2n "en-CA")
          os := Json.str (s2n "Linux")
          installed_addons := []
          disabled_addons_ids := Json.arr []
          bookmark_count := Json.num 0
          tab_open_count := Json.num 0
          total_uri := Json.num 0
          unique_tlds := Json.num 0 }), st) := by
  rw [ProfileFetcher_get, if_pos h]
  rfl

theorem C4_witness :
    (s2n "t1" ∈ [s2n "t1"] ∨ s2n "t1" ∈ [s2n "t2"]) ∧
    ProfileFetcher_get ⟨[s2n "t1"], [s2n "t2"]⟩ (fun _ => Except.error PyErr.transport)
      ⟨none⟩ (s2n "t1") =
      (Except.ok (some
        { client_id := s2n "t1"
          geo_city := Json.str (s2n "Toronto")
          subsession_length := Json.num 42
          locale := Json.str (s2n "en-CA")
          os := Json.str (s2n "Linux")
          installed_addons := []
          disabled_addons_ids := Json.arr []
          bookmark_count := Json.num 0
          tab_open_count := Json.num 0
          total_uri := Json.num 0
          unique_tlds := Json.num 0 }), (⟨none⟩ : FetcherState)) :=
  ⟨Or.inl (by decide),
    C4_test_ids_short_circuit ⟨[s2n "t1"], [s2n "t2"]⟩
      (fun _ => Except.error PyErr.transport) ⟨none⟩ (s2n "t1") (Or.inl (by decide))⟩

/-- C5: the storage codec round trip — compress the UTF-8 encoding of the
serialized record, then decompress, decode and parse — returns the record
unchanged, for every record whose strings are well formed; in particular
fields outside the fixed schema survive (the record is arbitrary). -/
theorem C5_codec_round_trip (r : Json) (hok : jsonOk r = true) :
    read_decode (set_payload r) = some r :=
  read_decode_set_payload r hok

/-- The populated-profile scenario record of the spec, one extra field
added. -/
def scenario_record : Json :=
  Json.obj [(kClientId, Json.str (s2n "abc123")),
    (kCity, Json.str (s2n "Paris")),
    (kLocale, Json.str (s2n "fr")),
    (kOs, Json.str (s2n "Darwin")),
    (kPlacesBookmarksCount, Json.num 5),
    (kActiveAddons, Json.arr [Json.obj [(kAddonId, Json.str (s2n "ublock"))]]),
    (s2n "extra_field", Json.num (-3))]

theorem C5_witness :
    jsonOk scenario_record = true ∧
    read_decode (set_payload scenario_record) = some scenario_record :=
  ⟨by decide, C5_codec_round_trip scenario_record (by decide)⟩

/-- C6: the key-value backend's `get_client_profile` never raises (first
conjunct: the backend always returns an `ok`), returns absence on a missing
key, on a raised read, and on any payload whose decode chain fails; a corrupt
payload is thereby indistinguishable from a missing key (last conjunct). -/
theorem C6_kv_read_errors_to_absence (t : List Nat → DDBResponse) (cid : List Nat) :
    (∃ o, ddbBackend t cid = Except.ok o) ∧
    (t cid = DDBResponse.missing → ProfileController_get_client_profile t cid = none) ∧
    (∀ e, t cid = DDBResponse.raise e → ProfileController_get_client_profile t cid = none) ∧
    (∀ bs, t cid = DDBResponse.found bs → read_decode bs = none →
      ProfileController_get_client_profile t cid = none) ∧
    (∀ bs (t' : List Nat → DDBResponse), t cid = DDBResponse.found bs →
      read_decode bs = none → t' cid = DDBResponse.missing →
      ProfileController_get_client_profile t cid =
        ProfileController_get_client_profile t' cid) := by
  have hmiss : ∀ u : List Nat → DDBResponse, u cid = DDBResponse.missing →
      ProfileController_get_client_profile u cid = none := by
    intro u h
    rw [ProfileController_get_client_profile, ddb_read_raw, h]
  have hfound : ∀ bs, t cid = DDBResponse.found bs → read_decode bs = none →
      ProfileController_get_client_profile t cid = none := by
    intro bs h hdec
    rw [read_decode] at hdec
    simp only [ProfileController_get_client_profile, ddb_read_raw, h]
    cases hz : zlib_decompress bs with
    | none => rfl
    | some tt =>
      rw [hz] at hdec
      simp only [Option.some_bind] at hdec
      show (match (match utf8Decode tt with
        | none => Except.error PyErr.unicodeDecodeError
        | some s =>
          match json_loads s with
          | none => Except.error PyErr.jsonDecodeError
          | some j => Except.ok j) with
      | Except.ok j => some j
      | Except.error _ => none) = none
      cases hu : utf8Decode tt with
      | none => rfl
      | some s =>
        rw [hu] at hdec
        simp only [Option.some_bind] at hdec
        show (match (match json_loads s with
          | none => Except.error PyErr.jsonDecodeError
          | some j => Except.ok j) with
        | Except.ok j => some j
        | Except.error _ => none) = none
        cases hj : json_loads s with
        | none => rfl
        | some j => rw [hj] at hdec; exact Option.noConfusion hdec
  refine ⟨⟨ProfileController_get_client_profile t cid, rfl⟩, hmiss t, ?_, hfound, ?_⟩
  · intro e h
    rw [ProfileController_get_client_profile, ddb_read_raw, h]
  · intro bs t' h hdec h'
    rw [hfound bs h hdec, hmiss t' h']

theorem C6_witness :
    ProfileController_get_client_profile (fun _ => DDBResponse.found [0]) (s2n "cw6") =
      none :=
  (C6_kv_read_errors_to_absence (fun _ => DDBResponse.found [0]) (s2n "cw6")).2.2.2.1
    [0] rfl rfl

/-- C7: when `active_addons` is a list of dicts each carrying `"addon_id"`,
the normalized `installed_addons` is exactly the `addon_id` values of the
entries whose `is_system` is absent or falsy, in source order. -/
theorem C7_installed_addons_filter (cid : List Nat) (kvs : List (List Nat × Json))
    (entries : List Json) (hlk : lookupA kvs kActiveAddons = some (Json.arr entries))
    (hok : entries.all entryOk = true) :
    ∃ p, normalizeStep cid (Json.obj kvs) = Except.ok p ∧
      p.installed_addons = (entries.filter spec_addon_included).map spec_addon_id := by
  have hbind : (pyIterate (dictGet kvs kActiveAddons (Json.arr []))).bind extractAddonsList =
      Except.ok ((entries.filter spec_addon_included).map spec_addon_id) := by
    rw [dictGet, hlk]
    exact extractAddonsList_spec entries hok
  refine ⟨{ client_id := cid
            geo_city := dictGet kvs kCity (Json.str [])
            subsession_length := dictGet kvs kSubsessionLength (Json.num 0)
            locale := dictGet kvs kLocale (Json.str [])
            os := dictGet kvs kOs (Json.str [])
            installed_addons := (entries.filter spec_addon_included).map spec_addon_id
            disabled_addons_ids := dictGet kvs kDisabledAddonsIds (Json.arr [])
            bookmark_count := dictGet kvs kPlacesBookmarksCount (Json.num 0)
            tab_open_count := dictGet kvs kTabOpenCount (Json.num 0)
            total_uri := dictGet kvs kTotalUri (Json.num 0)
            unique_tlds := dictGet kvs kUniqueTlds (Json.num 0) }, ?_, rfl⟩
  rw [normalizeStep_obj, hbind]

theorem C7_witness :
    ∃ p, normalizeStep (s2n "cw7")
        (Json.obj [(kActiveAddons, Json.arr
          [Json.obj [(kAddonId, Json.str (s2n "a")), (kIsSystem, Json.bool true)],
           Json.obj [(kAddonId, Json.str (s2n "b"))]])]) = Except.ok p ∧
      p.installed_addons = [Json.str (s2n "b")] := by
  obtain ⟨p, h1, h2⟩ := C7_installed_addons_filter (s2n "cw7")
    [(kActiveAddons, Json.arr
      [Json.obj [(kAddonId, Json.str (s2n "a")), (kIsSystem, Json.bool true)],
       Json.obj [(kAddonId, Json.str (s2n "b"))]])]
    [Json.obj [(kAddonId, Json.str (s2n "a")), (kIsSystem, Json.bool true)],
     Json.obj [(kAddonId, Json.str (s2n "b"))]] rfl (by decide)
  exact ⟨p, h1, by rw [h2]; rfl⟩

/-- C8: the empty raw record normalizes to the all-defaults profile: empty
city, locale and os, zero counts, empty add-on lists. -/
theorem C8_empty_record_defaults (cid : List Nat) :
    normalizeStep cid (Json.obj []) =
      Except.ok
        { client_id := cid
          geo_city := Json.str []
          subsession_length := Json.num 0
          locale := Json.str []
          os := Json.str []
          installed_addons := []
          disabled_addons_ids := Json.arr []
          bookmark_count := Json.num 0
          tab_open_count := Json.num 0
          total_uri := Json.num 0
          unique_tlds := Json.num 0 } := rfl

/-- C9: on the non-test path, whenever the fetcher returns a profile its
`client_id` is the requested identifier, whatever the backend and whatever
`client_id` the raw record itself carried. -/
theorem C9_client_id_requested (ts : TestSets) (dflt : Backend) (st : FetcherState)
    (cid : List Nat) (p : NormalizedProfile) (st' : FetcherState)
    (h1 : cid ∉ ts.testIds) (h2 : cid ∉ ts.emptyTestIds)
    (hres : ProfileFetcher_get ts dflt st cid = (Except.ok (some p), st')) :
    p.client_id = cid := by
  rw [ProfileFetcher_get_nontest ts dflt st cid h1 h2] at hres
  cases hb : (st.client.getD dflt) cid with
  | error e => simp [hb] at hres
  | ok o =>
    cases o with
    | none => simp [hb] at hres
    | some pd =>
      simp only [hb] at hres
      have hx := congrArg Prod.fst hres
      cases hn : normalizeStep cid pd with
      | error e => rw [hn] at hx; simp only [Except.map] at hx; exact Except.noConfusion hx
      | ok q =>
        have hq := normalizeStep_client_id cid pd q hn
        rw [hn] at hx
        simp only [Except.map] at hx
        injection hx with h3
        injection h3 with h4
        rw [← h4]
        exact hq

/-- A backend returning a record that itself claims another `client_id`. -/
def evilRecordBackend : Backend :=
  fun _ => Except.ok (some (Json.obj [(kClientId, Json.str (s2n "evil"))]))

theorem C9_witness :
    ∃ p st', ProfileFetcher_get ⟨[], []⟩ (fun _ => Except.ok none)
        ⟨some evilRecordBackend⟩ (s2n "abc") = (Except.ok (some p), st') ∧
      p.client_id = s2n "abc" := by
  refine ⟨{ client_id := s2n "abc"
            geo_city := Json.str []
            subsession_length := Json.num 0
            locale := Json.str []
            os := Json.str []
            installed_addons := []
            disabled_addons_ids := Json.arr []
            bookmark_count := Json.num 0
            tab_open_count := Json.num 0
            total_uri := Json.num 0
            unique_tlds := Json.num 0 },
    ⟨some evilRecordBackend⟩, rfl, ?_⟩
  exact C9_client_id_requested ⟨[], []⟩ (fun _ => Except.ok none) ⟨some evilRecordBackend⟩
    (s2n "abc") _ ⟨some evilRecordBackend⟩ (by decide) (by decide) rfl

/-- C10: when `active_addons` is absent or a list of dicts each carrying
`"addon_id"`, normalization completes without error — and this is the only
shape hypothesis: every other field of the record is arbitrary. -/
theorem C10_addon_shape_sufficient (cid : List Nat) (kvs : List (List Nat × Json))
    (hshape : addonsShapeOk kvs = true) :
    ∃ p, normalizeStep cid (Json.obj kvs) = Except.ok p := by
  cases hlk : lookupA kvs kActiveAddons with
  | none =>
    refine ⟨{ client_id := cid
              geo_city := dictGet kvs kCity (Json.str [])
              subsession_length := dictGet kvs kSubsessionLength (Json.num 0)
              locale := dictGet kvs kLocale (Json.str [])
              os := dictGet kvs kOs (Json.str [])
              installed_addons := []
              disabled_addons_ids := dictGet kvs kDisabledAddonsIds (Json.arr [])
              bookmark_count := dictGet kvs kPlacesBookmarksCount (Json.num 0)
              tab_open_count := dictGet kvs kTabOpenCount (Json.num 0)
              total_uri := dictGet kvs kTotalUri (Json.num 0)
              unique_tlds := dictGet kvs kUniqueTlds (Json.num 0) }, ?_⟩
    rw [normalizeStep_obj,
      show (pyIterate (dictGet kvs kActiveAddons (Json.arr []))).bind extractAddonsList =
        Except.ok [] from by rw [dictGet, hlk]; rfl]
  | some v =>
    rw [addonsShapeOk, hlk] at hshape
    cases v with
    | arr xs =>
      obtain ⟨l, hl⟩ := extractAddonsList_ok xs hshape
      refine ⟨{ client_id := cid
                geo_city := dictGet kvs kCity (Json.str [])
                subsession_length := dictGet kvs kSubsessionLength (Json.num 0)
                locale := dictGet kvs kLocale (Json.str [])
                os := dictGet kvs kOs (Json.str [])
                installed_addons := l
                disabled_addons_ids := dictGet kvs kDisabledAddonsIds (Json.arr [])
                bookmark_count := dictGet kvs kPlacesBookmarksCount (Json.num 0)
                tab_open_count := dictGet kvs kTabOpenCount (Json.num 0)
                total_uri := dictGet kvs kTotalUri (Json.num 0)
                unique_tlds := dictGet kvs kUniqueTlds (Json.num 0) }, ?_⟩
      rw [normalizeStep_obj,
        show (pyIterate (dictGet kvs kActiveAddons (Json.arr []))).bind extractAddonsList =
          Except.ok l from by rw [dictGet, hlk]; exact hl]
    | null => exact Bool.noConfusion hshape
    | bool b => exact Bool.noConfusion hshape
    | num n => exact Bool.noConfusion hshape
    | str s => exact Bool.noConfusion hshape
    | obj m => exact Bool.noConfusion hshape

theorem C10_witness :
    addonsShapeOk [(kActiveAddons, Json.arr [Json.obj [(kAddonId, Json.num 7)]]),
      (kCity, Json.num 9)] = true ∧
    ∃ p, normalizeStep (s2n "cw10")
      (Json.obj [(kActiveAddons, Json.arr [Json.obj [(kAddonId, Json.num 7)]]),
        (kCity, Json.num 9)]) = Except.ok p :=
  ⟨by decide,
    C10_addon_shape_sufficient (s2n "cw10")
      [(kActiveAddons, Json.arr [Json.obj [(kAddonId, Json.num 7)]]),
        (kCity, Json.num 9)] (by decide)⟩

